import Mathlib

set_option maxRecDepth 100000

/-!
Verification development for the aleph-rs message content-addressing and
polymorphic decoding subsystem (crates aleph-types and aleph-sdk).

Modelling conventions, fixed once for the whole file:

* A Rust `String`/`&str` is modelled as its UTF-8 byte sequence, `Str := List Nat`
  (each element a byte, `< 256` for well-formed data).  Byte-level modelling is
  needed because `AlephItemHash::try_from` indexes and slices the string by byte
  position, which can panic at a non-character boundary.
* Rust `u64` values are modelled as `Nat` with explicit `< 2^64` bounds where the
  source uses checked arithmetic.
* Rust `f64` values are modelled as exact rationals (`Rat`).  Every binary64
  value is an exact rational, so determinism and the concrete timestamp claims
  (whose inputs are exactly representable, e.g. 1635789600.5) are captured
  exactly; decimal-to-float rounding is modelled as exact rational reading, which
  coincides with the float semantics on the inputs used in the theorems below.
* Fallible Rust functions return `Except`; functions that can also panic return
  `PResult`, which has an explicit `panicked` outcome.
* Side effects: `Message::compute_item_hash` prints debug output with `println!`.
  The model returns the list of data payloads written to stdout alongside the
  value, so that the absence or presence of output is provable.
-/

/-- The UTF-8 byte string model of a Rust `String` / `&str`. -/
abbrev Str := List Nat

/-- UTF-8 encoding of one Unicode scalar value (1 to 4 bytes). -/
def utf8Char (c : Char) : List Nat :=
  let n := c.toNat
  if n < 0x80 then [n]
  else if n < 0x800 then [0xC0 + n / 64, 0x80 + n % 64]
  else if n < 0x10000 then [0xE0 + n / 4096, 0x80 + n / 64 % 64, 0x80 + n % 64]
  else [0xF0 + n / 262144, 0x80 + n / 4096 % 64, 0x80 + n / 64 % 64, 0x80 + n % 64]

/-- UTF-8 bytes of a Lean string literal, used to write Rust strings in the model. -/
def utf8 (s : String) : Str :=
  s.toList.flatMap utf8Char

/-- Every byte of the string is ASCII (`< 0x80`). -/
def allAscii (s : Str) : Prop := ∀ b ∈ s, b < 0x80

instance (s : Str) : Decidable (allAscii s) := by
  unfold allAscii; infer_instance

/-- Rust `str::is_char_boundary`: true at 0 and at the length, false past the end,
and otherwise true iff the byte at the index is not a UTF-8 continuation byte. -/
def isCharBoundary (s : Str) (i : Nat) : Bool :=
  if i = 0 then true
  else if i = s.length then true
  else match s.get? i with
    | some b => decide (b < 0x80) || decide (0xC0 ≤ b)
    | none => false

/-- Rust byte slicing `&s[a..b]`: `none` models the panic on an out-of-range or
non-character-boundary index. -/
def strSlice? (s : Str) (a b : Nat) : Option Str :=
  if a ≤ b ∧ b ≤ s.length ∧ isCharBoundary s a ∧ isCharBoundary s b then
    some ((s.drop a).take (b - a))
  else none

/-- Result of a Rust computation that can also panic. -/
inductive PResult (ε α : Type) where
  | panicked : PResult ε α
  | err (e : ε) : PResult ε α
  | ok (a : α) : PResult ε α
deriving DecidableEq

def PResult.map {ε α β : Type} (f : α → β) : PResult ε α → PResult ε β
  | .panicked => .panicked
  | .err e => .err e
  | .ok a => .ok (f a)

def PResult.bind {ε α β : Type} : PResult ε α → (α → PResult ε β) → PResult ε β
  | .panicked, _ => .panicked
  | .err e, _ => .err e
  | .ok a, f => f a

def PResult.mapErr {ε ε' α : Type} (f : ε → ε') : PResult ε α → PResult ε' α
  | .panicked => .panicked
  | .err e => .err (f e)
  | .ok a => .ok a

/-- Value of one ASCII hex digit byte, in either case. -/
def hexVal (b : Nat) : Option Nat :=
  if 0x30 ≤ b ∧ b ≤ 0x39 then some (b - 0x30)
  else if 0x61 ≤ b ∧ b ≤ 0x66 then some (b - 0x61 + 10)
  else if 0x41 ≤ b ∧ b ≤ 0x46 then some (b - 0x41 + 10)
  else none

/-- `u8::from_str_radix(s, 16)`: an optional leading `+`, then one or more hex
digits in either case, value below 256.  (Rust's integer parsing accepts a
leading plus sign; a minus sign or any other byte is an invalid digit for `u8`.) -/
def u8FromStrRadix16 (s : Str) : Option Nat :=
  let digits := if s.head? = some 0x2B then s.tail else s
  if digits.isEmpty then none
  else
    (digits.foldl (fun acc b => acc.bind fun v => (hexVal b).map fun d => v * 16 + d)
      (some 0)).bind fun v => if v < 256 then some v else none

theorem sanity_u8_radix_plain : u8FromStrRadix16 (utf8 "ab") = some 171 := by decide

theorem sanity_u8_radix_plus : u8FromStrRadix16 (utf8 "+a") = some 10 := by decide

theorem sanity_u8_radix_bad : u8FromStrRadix16 (utf8 "g0") = none := by decide

/-- Error type of `AlephItemHash::try_from` (item_hash.rs): wrong length, or a
pair that is not a valid radix-16 `u8`. -/
inductive AlephItemHashError where
  | invalidLength (s : Str) : AlephItemHashError
  | invalidHexDigit (s : Str) : AlephItemHashError
deriving DecidableEq

/-- A native Aleph hash: 32 raw bytes (`AlephItemHash` in item_hash.rs). -/
structure AlephItemHash where
  bytes : List Nat
deriving DecidableEq

/-- The byte-pair loop of `AlephItemHash::try_from`: with `n` pairs left and the
loop counter at `i`, slice `&hex[2*i .. 2*i + 2]` (panicking at a
non-character boundary, like Rust string indexing) and parse the pair with
`u8::from_str_radix(_, 16)`; a parse failure is `InvalidHexDigit` carrying the
whole input.  The source iterates `i` over `0..32`; here `n` counts the
remaining iterations, so the entry point is `alephHexPairs hex 32 0`. -/
def alephHexPairs (hex : Str) : Nat → Nat → PResult AlephItemHashError (List Nat)
  | 0, _ => .ok []
  | n + 1, i =>
    match strSlice? hex (2 * i) (2 * i + 2) with
    | none => .panicked
    | some pair =>
      match u8FromStrRadix16 pair with
      | some b => (alephHexPairs hex n (i + 1)).map (b :: ·)
      | none => .err (.invalidHexDigit hex)

/-- `AlephItemHash::try_from(&str)` (item_hash.rs lines 122-136): require byte
length exactly 64, then decode the 32 byte pairs in place. -/
def AlephItemHash.tryFrom (hex : Str) : PResult AlephItemHashError AlephItemHash :=
  if hex.length ≠ 64 then .err (.invalidLength hex)
  else (alephHexPairs hex 32 0).map AlephItemHash.mk

/-- Lowercase hex digit byte for a value below 16 (the `{:02x}` digit). -/
def hexDigitLower (n : Nat) : Nat :=
  if n < 10 then 0x30 + n else 0x61 + (n - 10)

/-- Two-digit lowercase hex rendering of one byte, as `write!("{:02x}", byte)`
produces for byte values below 256 (every stored byte is below 256: it comes
from a `u8` pair parse or a SHA-256 digest). -/
def byteToHex (b : Nat) : Str :=
  [hexDigitLower (b / 16 % 16), hexDigitLower (b % 16)]

/-- `Display for AlephItemHash`: each byte as two lowercase hex digits,
concatenated, no separators. -/
def AlephItemHash.display (h : AlephItemHash) : Str :=
  h.bytes.flatMap byteToHex

/-- Error type of `Cid::try_from` (cid.rs). -/
inductive CidError where
  | emptyString : CidError
  | invalidFormat : CidError
  | invalidV0 : CidError
deriving DecidableEq

/-- Newtype for IPFS CIDv0 (cid.rs): the stored string. -/
structure CidV0 where
  str : Str
deriving DecidableEq

/-- Newtype for IPFS CIDv1 (cid.rs): the stored multibase string. -/
structure CidV1 where
  str : Str
deriving DecidableEq

/-- `Cid` (cid.rs): CIDv0 or CIDv1. -/
inductive Cid where
  | v0 (c : CidV0) : Cid
  | v1 (c : CidV1) : Cid
deriving DecidableEq

/-- `CidV0::new` (cid.rs lines 37-43): requires the `"Qm"` prefix and byte
length exactly 46. -/
def CidV0.new (cid : Str) : Except CidError CidV0 :=
  if cid.take 2 = [0x51, 0x6D] ∧ cid.length = 46 then .ok ⟨cid⟩ else .error .invalidV0

/-- The nine multibase first-character bytes recognised by `Cid::try_from`
(cid.rs lines 157-160): b, B, z, f, F, m, M, u, U.  The match is on the first
`char`; since every recognised character is ASCII, a string whose first char
matches is exactly a string whose first byte is one of these values. -/
def multibaseFirstBytes : List Nat :=
  [0x62, 0x42, 0x7A, 0x66, 0x46, 0x6D, 0x4D, 0x75, 0x55]

/-- `Cid::try_from(String)` (cid.rs lines 138-167): empty is an error; the
`"Qm"`+46 shape is V0; length above 1 with a recognised multibase first
character is V1; anything else is `InvalidFormat`. -/
def Cid.tryFrom (value : Str) : Except CidError Cid :=
  if value.isEmpty then .error .emptyString
  else if value.take 2 = [0x51, 0x6D] ∧ value.length = 46 then .ok (.v0 ⟨value⟩)
  else if value.length > 1 ∧ value.headI ∈ multibaseFirstBytes then .ok (.v1 ⟨value⟩)
  else .error .invalidFormat

/-- `Display for Cid`: the stored string of either variant. -/
def Cid.display : Cid → Str
  | .v0 c => c.str
  | .v1 c => c.str

/-- Error type of `ItemHash::try_from` (item_hash.rs lines 11-15). -/
inductive ItemHashError where
  | unknownHashType (s : Str) : ItemHashError
deriving DecidableEq

/-- `ItemHash` (item_hash.rs lines 17-22): a native 32-byte hash or an IPFS CID. -/
inductive ItemHash where
  | native (h : AlephItemHash) : ItemHash
  | ipfs (c : Cid) : ItemHash
deriving DecidableEq

/-- `ItemHash::try_from(&str)` (item_hash.rs lines 42-55): attempt the native
decode first; on failure attempt the CID decode; otherwise an unknown-hash-type
error.  A panic inside the native decode propagates. -/
def ItemHash.tryFrom (value : Str) : PResult ItemHashError ItemHash :=
  match AlephItemHash.tryFrom value with
  | .panicked => .panicked
  | .ok h => .ok (.native h)
  | .err _ =>
    match Cid.tryFrom value with
    | .ok c => .ok (.ipfs c)
    | .error _ => .err (.unknownHashType value)

/-- `Display for ItemHash`: delegate to the variant's display. -/
def ItemHash.display : ItemHash → Str
  | .native h => h.display
  | .ipfs c => c.display

theorem sanity_item_hash_native :
    ItemHash.tryFrom (utf8 "3c5b05761c8f94a7b8fe6d0d43e5fb91f9689c53c078a870e5e300c7da8a1878") =
      .ok (.native ⟨[0x3c, 0x5b, 0x05, 0x76, 0x1c, 0x8f, 0x94, 0xa7, 0xb8, 0xfe, 0x6d, 0x0d,
        0x43, 0xe5, 0xfb, 0x91, 0xf9, 0x68, 0x9c, 0x53, 0xc0, 0x78, 0xa8, 0x70, 0xe5, 0xe3,
        0x00, 0xc7, 0xda, 0x8a, 0x18, 0x78]⟩) := by decide

theorem sanity_item_hash_v0 :
    ItemHash.tryFrom (utf8 "QmYULJoNGPDmoRq4WNWTDTUvJGJv1hosox8H6vVd1kCsY8") =
      .ok (.ipfs (.v0 ⟨utf8 "QmYULJoNGPDmoRq4WNWTDTUvJGJv1hosox8H6vVd1kCsY8"⟩)) := by decide

theorem sanity_item_hash_v1 :
    ItemHash.tryFrom (utf8 "bafybeigdyrzt5sfp7udm7hu76uh7y26nf3efuylqabf3oclgtqy55fbzdi") =
      .ok (.ipfs (.v1 ⟨utf8 "bafybeigdyrzt5sfp7udm7hu76uh7y26nf3efuylqabf3oclgtqy55fbzdi"⟩)) := by
  decide

/-- 32-bit word arithmetic for SHA-256: all-ones mask. -/
def w32mask : Nat := 4294967295

/-- Right rotation of a 32-bit word. -/
def rotr32 (n x : Nat) : Nat :=
  ((x >>> n) ||| (x <<< (32 - n))) &&& w32mask

/-- The 64 SHA-256 round constants. -/
def sha256K : List Nat :=
  [1116352408, 1899447441, 3049323471, 3921009573, 961987163, 1508970993,
   2453635748, 2870763221, 3624381080, 310598401, 607225278, 1426881987,
   1925078388, 2162078206, 2614888103, 3248222580, 3835390401, 4022224774,
   264347078, 604807628, 770255983, 1249150122, 1555081692, 1996064986,
   2554220882, 2821834349, 2952996808, 3210313671, 3336571891, 3584528711,
   113926993, 338241895, 666307205, 773529912, 1294757372, 1396182291,
   1695183700, 1986661051, 2177026350, 2456956037, 2730485921, 2820302411,
   3259730800, 3345764771, 3516065817, 3600352804, 4094571909, 275423344,
   430227734, 506948616, 659060556, 883997877, 958139571, 1322822218,
   1537002063, 1747873779, 1955562222, 2024104815, 2227730452, 2361852424,
   2428436474, 2756734187, 3204031479, 3329325298]

/-- The initial SHA-256 hash state. -/
def sha256H0 : List Nat :=
  [1779033703, 3144134277, 1013904242, 2773480762, 1359893119, 2600822924,
   528734635, 1541459225]

/-- Big-endian 8-byte rendering of a length-in-bits value. -/
def beBytes8 (n : Nat) : List Nat :=
  [n / 72057594037927936 % 256, n / 281474976710656 % 256, n / 1099511627776 % 256,
   n / 4294967296 % 256, n / 16777216 % 256, n / 65536 % 256, n / 256 % 256, n % 256]

/-- Big-endian 4-byte rendering of a 32-bit word. -/
def beBytes4 (n : Nat) : List Nat :=
  [n / 16777216 % 256, n / 65536 % 256, n / 256 % 256, n % 256]

/-- SHA-256 message padding: 0x80, zeros to 56 mod 64, then the bit length. -/
def sha256Pad (msg : List Nat) : List Nat :=
  msg ++ 0x80 :: List.replicate ((119 - msg.length % 64) % 64) 0 ++ beBytes8 (8 * msg.length)

/-- Big-endian 32-bit words of a byte list whose length is a multiple of 4. -/
def bytesToWords32 : List Nat → List Nat
  | b0 :: b1 :: b2 :: b3 :: rest =>
    (((b0 * 256 + b1) * 256 + b2) * 256 + b3) :: bytesToWords32 rest
  | _ => []

/-- One step of the SHA-256 message-schedule extension. -/
def sha256ExtendStep (ws : List Nat) : List Nat :=
  let i := ws.length
  let w16 := ws.getD (i - 16) 0
  let w15 := ws.getD (i - 15) 0
  let w7 := ws.getD (i - 7) 0
  let w2 := ws.getD (i - 2) 0
  let s0 := (rotr32 7 w15) ^^^ (rotr32 18 w15) ^^^ (w15 >>> 3)
  let s1 := (rotr32 17 w2) ^^^ (rotr32 19 w2) ^^^ (w2 >>> 10)
  ws ++ [(w16 + s0 + w7 + s1) % 4294967296]

/-- Iterate the message-schedule extension `n` times (48 for a full schedule). -/
def sha256Extend : Nat → List Nat → List Nat
  | 0, ws => ws
  | n + 1, ws => sha256Extend n (sha256ExtendStep ws)

/-- The eight working variables of the SHA-256 compression loop. -/
structure Sha256State where
  a : Nat
  b : Nat
  c : Nat
  d : Nat
  e : Nat
  f : Nat
  g : Nat
  h : Nat

/-- One SHA-256 compression round with round constant `k` and schedule word `w`. -/
def sha256Round (st : Sha256State) (k w : Nat) : Sha256State :=
  let S1 := (rotr32 6 st.e) ^^^ (rotr32 11 st.e) ^^^ (rotr32 25 st.e)
  let ch := (st.e &&& st.f) ^^^ ((st.e ^^^ w32mask) &&& st.g)
  let temp1 := (st.h + S1 + ch + k + w) % 4294967296
  let S0 := (rotr32 2 st.a) ^^^ (rotr32 13 st.a) ^^^ (rotr32 22 st.a)
  let maj := (st.a &&& st.b) ^^^ (st.a &&& st.c) ^^^ (st.b &&& st.c)
  let temp2 := (S0 + maj) % 4294967296
  ⟨(temp1 + temp2) % 4294967296, st.a, st.b, st.c, (st.d + temp1) % 4294967296,
    st.e, st.f, st.g⟩

/-- Compress one 16-word block into the running 8-word hash value. -/
def sha256Compress (hs : List Nat) (block : List Nat) : List Nat :=
  let ws := sha256Extend 48 block
  let st0 : Sha256State :=
    ⟨hs.getD 0 0, hs.getD 1 0, hs.getD 2 0, hs.getD 3 0, hs.getD 4 0, hs.getD 5 0,
      hs.getD 6 0, hs.getD 7 0⟩
  let st := (List.zip sha256K ws).foldl (fun st kw => sha256Round st kw.1 kw.2) st0
  [(hs.getD 0 0 + st.a) % 4294967296, (hs.getD 1 0 + st.b) % 4294967296,
   (hs.getD 2 0 + st.c) % 4294967296, (hs.getD 3 0 + st.d) % 4294967296,
   (hs.getD 4 0 + st.e) % 4294967296, (hs.getD 5 0 + st.f) % 4294967296,
   (hs.getD 6 0 + st.g) % 4294967296, (hs.getD 7 0 + st.h) % 4294967296]

/-- Process `n` 16-word blocks of the padded message. -/
def sha256Blocks (hs : List Nat) : Nat → List Nat → List Nat
  | 0, _ => hs
  | n + 1, ws => sha256Blocks (sha256Compress hs (ws.take 16)) n (ws.drop 16)

/-- SHA-256 of a byte string, as a list of 32 bytes.  This is the digest
`Sha256::digest` used by `AlephItemHash::from_bytes` (item_hash.rs lines
100-107). -/
def sha256 (msg : List Nat) : List Nat :=
  let words := bytesToWords32 (sha256Pad msg)
  (sha256Blocks sha256H0 (words.length / 16) words).flatMap beBytes4

/-- `AlephItemHash::from_bytes`: the SHA-256 digest of the input stored as the
32 hash bytes. -/
def AlephItemHash.fromBytes (bytes : List Nat) : AlephItemHash :=
  ⟨sha256 bytes⟩

theorem sanity_sha256_abc :
    (AlephItemHash.fromBytes (utf8 "abc")).display =
      utf8 "ba7816bf8f01cfea414140de5dae2223b00361a396177a9cb410ff61f20015ad" := by decide

/-- The base58btc alphabet used by CIDv0 text encoding. -/
def base58Alphabet : Str :=
  utf8 "123456789ABCDEFGHJKLMNPQRSTUVWXYZabcdefghijkmnopqrstuvwxyz"

/-- Base58 digits of a natural number, most significant first (empty for 0).
Fuel-based so the definition evaluates in the kernel; 100 digits cover every
value a 34-byte multihash can take. -/
def natToBase58 : Nat → Nat → Str
  | 0, _ => []
  | fuel + 1, n =>
    if n = 0 then [] else natToBase58 fuel (n / 58) ++ [base58Alphabet.getD (n % 58) 0]

/-- Base58btc encoding of a byte string: one alphabet-first character per
leading zero byte, then the base58 digits of the big-endian value. -/
def base58Encode (bytes : List Nat) : Str :=
  List.replicate (bytes.takeWhile (· = 0)).length 0x31 ++
    natToBase58 100 (bytes.foldl (fun acc b => acc * 256 + b) 0)

/-- Modelled from the spec: `CidV0::from_bytes`, used by
`Message::compute_item_hash` for the `Ipfs` content source, is not among the
repository files under src/ (cid.rs declares `CidV0` but not this
constructor).  The spec fixes it as "the CID V0 digest rule (i.e.,
External/CID hashing)" applied to the canonical content bytes: the CIDv0 text
form of a byte string is the base58btc encoding of its SHA-256 multihash
(prefix bytes 0x12 0x20 followed by the 32 digest bytes), which always yields
a 46-character string starting with "Qm". -/
def CidV0.fromBytes (bytes : List Nat) : CidV0 :=
  ⟨base58Encode (0x12 :: 0x20 :: sha256 bytes)⟩

theorem sanity_cidv0_from_bytes :
    (CidV0.fromBytes (utf8 "abc")).str = utf8 "QmatYkNGZnELf8cAGdyJpUca2PyY4szai3RHyyWofNY1pY" := by
  decide

/-- The JSON value model (serde_json::Value).  Numbers are carried as exact
rationals: every binary64 float is an exact rational, so this captures the
values the Rust code manipulates (see the file header). -/
inductive Json where
  | null : Json
  | bool (b : Bool) : Json
  | num (q : Rat) : Json
  | str (s : Str) : Json
  | arr (elems : List Json) : Json
  | obj (fields : List (Str × Json)) : Json

/-- First value stored under a key of a JSON object, `none` for a non-object
or an absent key. -/
def Json.getField? : Json → Str → Option Json
  | .obj fields, k => (fields.find? (fun f => f.1 = k)).map (·.2)
  | _, _ => none

/-- `serde_json::Value` bracket indexing: yields `Null` for a non-object or an
absent key (used for `content_value["address"]` in the Message deserializer). -/
def Json.index (j : Json) (k : Str) : Json :=
  (j.getField? k).getD .null

/-- Decimal digits of a natural number, most significant first (empty for 0);
fuel-based so it evaluates in the kernel.  400 digits cover every value in this
development. -/
def natDecimalAux : Nat → Nat → Str
  | 0, _ => []
  | fuel + 1, n => if n = 0 then [] else natDecimalAux fuel (n / 10) ++ [0x30 + n % 10]

/-- Decimal rendering of a natural number. -/
def natDecimal (n : Nat) : Str :=
  if n = 0 then [0x30] else natDecimalAux 400 n

/-- Decimal digits of the fractional part `num/den` (`num < den`), stopping at
an exact expansion.  The fuel (1200) exceeds the longest finite decimal
expansion of any binary64 value, which is what every number in this model
denotes; non-terminating expansions are truncated. -/
def fracDigits : Nat → Nat → Nat → Str
  | 0, _, _ => []
  | fuel + 1, num, den =>
    if num = 0 then [] else (0x30 + num * 10 / den) :: fracDigits fuel (num * 10 % den) den

/-- Rendering of a float value as Rust's `Display for f64` / serde_json emit it
for the values in this model: minus sign for negatives, the integer part in
decimal, and a fractional part only when non-zero. -/
def f64Display (q : Rat) : Str :=
  let sign : Str := if q.num < 0 then [0x2D] else []
  let n := q.num.natAbs
  let intPart := natDecimal (n / q.den)
  let fracPart : Str :=
    if n % q.den = 0 then [] else 0x2E :: fracDigits 1200 (n % q.den) q.den
  sign ++ intPart ++ fracPart

/-- serde_json string escaping of one byte: quote and backslash escapes, the
short control escapes, `\u00XX` for other control bytes. -/
def jsonEscapeByte (b : Nat) : Str :=
  if b = 0x22 then [0x5C, 0x22]
  else if b = 0x5C then [0x5C, 0x5C]
  else if b = 0x08 then [0x5C, 0x62]
  else if b = 0x09 then [0x5C, 0x74]
  else if b = 0x0A then [0x5C, 0x6E]
  else if b = 0x0C then [0x5C, 0x66]
  else if b = 0x0D then [0x5C, 0x72]
  else if b < 0x20 then [0x5C, 0x75, 0x30, 0x30, hexDigitLower (b / 16), hexDigitLower (b % 16)]
  else [b]

/-- Join byte strings with a separator byte (the commas of JSON lists). -/
def joinSep (sep : Nat) : List Str → Str
  | [] => []
  | [x] => x
  | x :: xs => x ++ sep :: joinSep sep xs

/-- Compact serde_json rendering (`serde_json::to_string`), fuel-based over the
nesting depth so that it evaluates in the kernel; the fuel (512) is far beyond
serde_json's own default recursion limit of 128, so every representable wire
value renders exactly. -/
def jsonToStrF : Nat → Json → Str
  | 0, _ => []
  | fuel + 1, j =>
    match j with
    | .null => utf8 "null"
    | .bool true => utf8 "true"
    | .bool false => utf8 "false"
    | .num q => f64Display q
    | .str s => 0x22 :: s.flatMap jsonEscapeByte ++ [0x22]
    | .arr elems =>
      0x5B :: joinSep 0x2C (elems.map (jsonToStrF fuel)) ++ [0x5D]
    | .obj fields =>
      0x7B ::
        joinSep 0x2C
          (fields.map
            (fun f => 0x22 :: f.1.flatMap jsonEscapeByte ++ [0x22, 0x3A] ++ jsonToStrF fuel f.2)) ++
        [0x7D]

/-- Compact serde_json rendering of a JSON value. -/
def jsonToStr (j : Json) : Str :=
  jsonToStrF 512 j

theorem sanity_json_to_str :
    jsonToStr (.obj [(utf8 "a", .num (mkRat 3271579201 2)), (utf8 "b", .arr [.null, .bool true])]) =
      utf8 "\x7b\"a\":1635789600.5,\"b\":[null,true]\x7d" := by decide

/-- `Chain` (chain.rs): the supported blockchain identifiers. -/
inductive Chain where
  | arbitrum | aurora | avax | base | blast | bob | bsc | csdk | cyber | polkadot
  | eclipse | ethereum | etherlink | fraxtal | hype | ink | lens | linea | lisk
  | metis | mode | neo | nuls | nuls2 | optimism | pol | sol | somnia | sonic
  | tezos | unichain | worldchain | zora
deriving DecidableEq

/-- The serde rename of each `Chain` variant (chain.rs): its wire string. -/
def Chain.wireName : Chain → Str
  | .arbitrum => utf8 "ARB"
  | .aurora => utf8 "AURORA"
  | .avax => utf8 "AVAX"
  | .base => utf8 "BASE"
  | .blast => utf8 "BLAST"
  | .bob => utf8 "BOB"
  | .bsc => utf8 "BSC"
  | .csdk => utf8 "CSDK"
  | .cyber => utf8 "CYBER"
  | .polkadot => utf8 "DOT"
  | .eclipse => utf8 "ES"
  | .ethereum => utf8 "ETH"
  | .etherlink => utf8 "ETHERLINK"
  | .fraxtal => utf8 "FRAX"
  | .hype => utf8 "HYPE"
  | .ink => utf8 "INK"
  | .lens => utf8 "LENS"
  | .linea => utf8 "LINEA"
  | .lisk => utf8 "LISK"
  | .metis => utf8 "METIS"
  | .mode => utf8 "MODE"
  | .neo => utf8 "NEO"
  | .nuls => utf8 "NULS"
  | .nuls2 => utf8 "NULS2"
  | .optimism => utf8 "OP"
  | .pol => utf8 "POL"
  | .sol => utf8 "SOL"
  | .somnia => utf8 "STT"
  | .sonic => utf8 "SONIC"
  | .tezos => utf8 "TEZOS"
  | .unichain => utf8 "UNICHAIN"
  | .worldchain => utf8 "WLD"
  | .zora => utf8 "ZORA"

/-- All `Chain` variants, for wire-name lookup during deserialization. -/
def Chain.allVariants : List Chain :=
  [.arbitrum, .aurora, .avax, .base, .blast, .bob, .bsc, .csdk, .cyber, .polkadot,
   .eclipse, .ethereum, .etherlink, .fraxtal, .hype, .ink, .lens, .linea, .lisk,
   .metis, .mode, .neo, .nuls, .nuls2, .optimism, .pol, .sol, .somnia, .sonic,
   .tezos, .unichain, .worldchain, .zora]

/-- `Address` (chain.rs): a plain string newtype. -/
structure Address where
  str : Str
deriving DecidableEq

/-- `Signature` (chain.rs): a plain string newtype. -/
structure Signature where
  str : Str
deriving DecidableEq

/-- `Channel` (channel.rs): a plain string newtype. -/
structure Channel where
  str : Str
deriving DecidableEq

/-- `Timestamp` (timestamp.rs): a float seconds-since-epoch value, modelled as
the exact rational the binary64 value denotes. -/
structure Timestamp where
  val : Rat
deriving DecidableEq

/-- `MessageType` (base_message.rs lines 29-38): the six message-type tags. -/
inductive MessageType where
  | aggregate | forget | instanceTy | post | program | store
deriving DecidableEq

/-- The serde `UPPERCASE` rename of each `MessageType` variant, which is also
its `Display` form (base_message.rs lines 40-53). -/
def MessageType.wireName : MessageType → Str
  | .aggregate => utf8 "AGGREGATE"
  | .forget => utf8 "FORGET"
  | .instanceTy => utf8 "INSTANCE"
  | .post => utf8 "POST"
  | .program => utf8 "PROGRAM"
  | .store => utf8 "STORE"

/-- All `MessageType` variants, for wire-name lookup during deserialization. -/
def MessageType.allVariants : List MessageType :=
  [.aggregate, .forget, .instanceTy, .post, .program, .store]

/-- `MessageStatus` (base_message.rs lines 55-63).  The enum as declared in the
source has exactly these five variants: Pending, Processed, Removing, Removed,
Forgotten — there is no Rejected variant. -/
inductive MessageStatus where
  | pending | processed | removing | removed | forgotten
deriving DecidableEq

/-- `ContentSource` (base_message.rs lines 110-116): where the canonical content
bytes live; `Inline` carries the raw content string. -/
inductive ContentSource where
  | inlineSource (item_content : Str) : ContentSource
  | storage : ContentSource
  | ipfs : ContentSource
deriving DecidableEq

/-- `MessageConfirmation` (base_message.rs lines 99-106). -/
structure MessageConfirmation where
  chain : Chain
  height : Nat
  hash : Str
  time : Option Timestamp
  publisher : Option Address
deriving DecidableEq

/-- `AggregateKey` (aggregate.rs lines 9-14): an untagged union of a plain
string and a dict whose `name` field holds the key. -/
inductive AggregateKey where
  | string (key : Str) : AggregateKey
  | dict (name : Str) : AggregateKey
deriving DecidableEq

/-- `AggregateContent` (aggregate.rs lines 25-31): the aggregate key and the
content dictionary (`HashMap<serde_json::Value, serde_json::Value>`; JSON
decoding always produces string keys, but the field type admits any JSON value
as key, which is why serializing it back can fail). -/
structure AggregateContent where
  key : AggregateKey
  content : List (Json × Json)

/-- `ForgetContent` (forget.rs lines 5-12). -/
structure ForgetContent where
  hashes : List ItemHash
  aggregates : List ItemHash
  reason : Option Str

/-- `PostType` (post.rs lines 4-14): untagged; `Amend` carries the `ref` field,
`Other` carries the `type` field. -/
inductive PostType where
  | amend (reference : Str) : PostType
  | other (post_type : Str) : PostType
deriving DecidableEq

/-- `PostContent` (post.rs lines 16-21): the flattened post type and an
optional free-form content value. -/
structure PostContent where
  post_type : PostType
  content : Option Json

/-- `InstanceContent` (instance.rs lines 6-14).  Its field-level schema
(executable base, environment, rootfs volume — execution/*.rs) is not needed by
any claim settled in this file; the decoded value retains the raw JSON payload
object, and no claim below depends on the field validation inside this
variant. -/
structure InstanceContent where
  payload : List (Str × Json)

/-- `ProgramContent` (program.rs lines 48-66).  Modelled like
`InstanceContent`: the raw JSON payload object is retained, since no claim
below depends on the field validation inside this variant. -/
structure ProgramContent where
  payload : List (Str × Json)

/-- Modelled from the spec: `StoreContent` is declared in store.rs, which is
not among the repository files under src/ (message/mod.rs declares and
re-exports it).  The spec treats content variants other than Aggregate as
plain structured records; the raw JSON payload object is retained. -/
structure StoreContent where
  payload : List (Str × Json)

/-- `MessageContentEnum` (base_message.rs lines 80-89): the six content
variants. -/
inductive MessageContentEnum where
  | aggregate (c : AggregateContent) : MessageContentEnum
  | forget (c : ForgetContent) : MessageContentEnum
  | inst (c : InstanceContent) : MessageContentEnum
  | post (c : PostContent) : MessageContentEnum
  | program (c : ProgramContent) : MessageContentEnum
  | store (c : StoreContent) : MessageContentEnum

/-- `MessageContent` (base_message.rs lines 91-97): the cross-cutting owner
address and content time, and the flattened variant. -/
structure MessageContent where
  address : Address
  time : Timestamp
  content : MessageContentEnum

/-- `Message` (base_message.rs lines 148-171). -/
structure Message where
  chain : Chain
  sender : Address
  signature : Signature
  content_source : ContentSource
  item_hash : ItemHash
  confirmations : List MessageConfirmation
  time : Timestamp
  channel : Option Channel
  message_type : MessageType
  content : MessageContent

/-- `Message::confirmed` (base_message.rs lines 178-180): the confirmations
list is non-empty. -/
def Message.confirmed (m : Message) : Bool :=
  !m.confirmations.isEmpty

/-- Decode errors (serde::de::Error in the source).  The source carries string
messages; the model keeps the structured cause: the named missing field, the
unknown variant string, a type mismatch, an untagged union with no matching
variant, a number-parse failure, or a nested error wrapped by
`de::Error::custom` (which in serde preserves the message text). -/
inductive DeError where
  | missingField (name : Str) : DeError
  | unknownVariant (got : Str) : DeError
  | invalidType : DeError
  | untaggedNoMatch : DeError
  | parseFailed : DeError
deriving DecidableEq

/-- `de::Error::custom` re-wraps an error, preserving its message; the model
keeps the error itself. -/
def deCustom (e : DeError) : DeError := e

/-- `Deserialize for AlephItemHash` (item_hash.rs lines 164-172): a JSON
string decoded through `AlephItemHash::try_from` (whose panic propagates). -/
def AlephItemHash.deserialize : Json → PResult DeError AlephItemHash
  | .str s =>
    match AlephItemHash.tryFrom s with
    | .panicked => .panicked
    | .err _ => .err .parseFailed
    | .ok h => .ok h
  | _ => .err .invalidType

/-- `Deserialize for Cid` (cid.rs lines 206-214): a JSON string decoded through
`Cid::try_from`. -/
def Cid.deserialize : Json → PResult DeError Cid
  | .str s =>
    match Cid.tryFrom s with
    | .error _ => .err .parseFailed
    | .ok c => .ok c
  | _ => .err .invalidType

/-- `Deserialize for ItemHash` (item_hash.rs lines 17-22, `#[serde(untagged)]`):
try the `Native` variant first, then `Ipfs`; a panic in the native decode
propagates. -/
def ItemHash.deserialize (j : Json) : PResult DeError ItemHash :=
  match AlephItemHash.deserialize j with
  | .panicked => .panicked
  | .ok h => .ok (.native h)
  | .err _ =>
    match Cid.deserialize j with
    | .ok c => .ok (.ipfs c)
    | _ => .err .untaggedNoMatch

/-- Deserialization of a plain string newtype (`Address`, `Signature`,
`Channel`: derived `Deserialize` over `String`). -/
def strField : Json → PResult DeError Str
  | .str s => .ok s
  | _ => .err .invalidType

/-- Derived `Deserialize for Chain` (chain.rs): a string matching one of the
serde renames. -/
def Chain.deserialize : Json → PResult DeError Chain
  | .str s =>
    match Chain.allVariants.find? (fun c => c.wireName = s) with
    | some c => .ok c
    | none => .err (.unknownVariant s)
  | _ => .err .invalidType

/-- Derived `Deserialize for MessageType` (base_message.rs lines 29-38): a
string matching one of the `UPPERCASE` renames. -/
def MessageType.deserialize : Json → PResult DeError MessageType
  | .str s =>
    match MessageType.allVariants.find? (fun t => t.wireName = s) with
    | some t => .ok t
    | none => .err (.unknownVariant s)
  | _ => .err .invalidType

/-- Whether a byte is an ASCII decimal digit. -/
def isDigitByte (b : Nat) : Bool :=
  decide (0x30 ≤ b) && decide (b ≤ 0x39)

/-- Value of a digit run (most significant first). -/
def digitsVal (s : Str) : Nat :=
  s.foldl (fun acc b => acc * 10 + (b - 0x30)) 0

/-- `str::parse::<f64>()` on the decimal forms used by the wire format:
optional sign, digits with an optional fractional part and an optional
decimal exponent, read as the exact rational (see the file header for the
exact-rational float convention).  Infinity/NaN spellings and other shapes are
out of scope of the claims and parse as `none`. -/
def parseF64 (s : Str) : Option Rat :=
  let (sign, rest) :=
    match s with
    | 0x2D :: rest => ((-1 : Int), rest)
    | 0x2B :: rest => ((1 : Int), rest)
    | _ => ((1 : Int), s)
  let intDigits := rest.takeWhile isDigitByte
  let rest2 := rest.drop intDigits.length
  let (fracDigitsRun, rest3) :=
    match rest2 with
    | 0x2E :: r =>
      let fd := r.takeWhile isDigitByte
      (fd, r.drop fd.length)
    | _ => ([], rest2)
  let (expOk, expVal, rest4) :=
    match rest3 with
    | b :: r =>
      if b = 0x65 ∨ b = 0x45 then
        let (esign, er) :=
          match r with
          | 0x2D :: er => ((-1 : Int), er)
          | 0x2B :: er => ((1 : Int), er)
          | _ => ((1 : Int), r)
        let ed := er.takeWhile isDigitByte
        (!ed.isEmpty, esign * digitsVal ed, er.drop ed.length)
      else (false, 0, rest3)
    | [] => (true, 0, ([] : Str))
  if intDigits.isEmpty ∧ fracDigitsRun.isEmpty then none
  else if ¬rest4.isEmpty then none
  else if expOk = false then none
  else
    let mantissa : Int := sign * (digitsVal intDigits * 10 ^ fracDigitsRun.length + digitsVal fracDigitsRun)
    let e : Int := expVal - fracDigitsRun.length
    if 0 ≤ e then some (mkRat (mantissa * 10 ^ e.toNat) 1)
    else some (mkRat mantissa (10 ^ (-e).toNat))

theorem sanity_parse_f64 : parseF64 (utf8 "1635789600.5") = some (mkRat 3271579201 2) := by
  decide

/-- `Deserialize for Timestamp` (timestamp.rs lines 36-103): signed, unsigned
and float numbers are taken as the value; a string is parsed as a float; a map
is accepted only through the `NumberWrapper` defensive path, reading the
string under the serde_json private-number key; anything else is a type
error. -/
def Timestamp.deserialize : Json → PResult DeError Timestamp
  | .num q => .ok ⟨q⟩
  | .str s =>
    match parseF64 s with
    | some q => .ok ⟨q⟩
    | none => .err .parseFailed
  | .obj fields =>
    match (Json.obj fields).getField? (utf8 "$serde_json::private::Number") with
    | some (.str s) =>
      match parseF64 s with
      | some q => .ok ⟨q⟩
      | none => .err .parseFailed
    | _ => .err .invalidType
  | _ => .err .invalidType

/-- Deserialization of a `u64` (the confirmation height): an integral number
within the unsigned 64-bit range. -/
def u64Deserialize : Json → PResult DeError Nat
  | .num q =>
    if q.den = 1 ∧ 0 ≤ q.num ∧ q.num < 18446744073709551616 then .ok q.num.toNat
    else .err .invalidType
  | _ => .err .invalidType

/-- Derived `Deserialize for MessageConfirmation` (base_message.rs lines
99-106): required chain, height and hash; optional time and publisher. -/
def MessageConfirmation.deserialize (j : Json) : PResult DeError MessageConfirmation :=
  match j with
  | .obj _ =>
    PResult.bind
      (match j.getField? (utf8 "chain") with
       | none => .err (.missingField (utf8 "chain"))
       | some v => Chain.deserialize v) fun chain =>
    PResult.bind
      (match j.getField? (utf8 "height") with
       | none => .err (.missingField (utf8 "height"))
       | some v => u64Deserialize v) fun height =>
    PResult.bind
      (match j.getField? (utf8 "hash") with
       | none => .err (.missingField (utf8 "hash"))
       | some v => strField v) fun hash =>
    PResult.bind
      (match j.getField? (utf8 "time") with
       | none => .ok none
       | some .null => .ok none
       | some v => (Timestamp.deserialize v).map some) fun time =>
    PResult.bind
      (match j.getField? (utf8 "publisher") with
       | none => .ok none
       | some .null => .ok none
       | some v => (strField v).map (some ∘ Address.mk)) fun publisher =>
    .ok ⟨chain, height, hash, time, publisher⟩
  | _ => .err .invalidType

/-- Decode each element of a JSON array with `f`, failing on a non-array. -/
def listDeserialize {α : Type} (f : Json → PResult DeError α) : Json → PResult DeError (List α)
  | .arr elems =>
    elems.foldr (fun v acc => (f v).bind fun a => acc.bind fun rest => .ok (a :: rest)) (.ok [])
  | _ => .err .invalidType

/-- `Deserialize for ContentSource` (base_message.rs lines 118-146), decoded
from the flattened envelope object: a required `item_type` string; `inline`
additionally requires `item_content` (a missing one is a missing-field error);
`storage` and `ipfs` stand alone; any other `item_type` is an unknown-variant
error. -/
def ContentSource.deserialize (j : Json) : PResult DeError ContentSource :=
  PResult.bind
    (match j.getField? (utf8 "item_type") with
     | none => .err (.missingField (utf8 "item_type"))
     | some v => strField v) fun item_type =>
  PResult.bind
    (match j.getField? (utf8 "item_content") with
     | none => .ok none
     | some .null => .ok none
     | some v => (strField v).map some) fun item_content =>
  if item_type = utf8 "inline" then
    match item_content with
    | some c => .ok (.inlineSource c)
    | none => .err (.missingField (utf8 "item_content"))
  else if item_type = utf8 "storage" then .ok .storage
  else if item_type = utf8 "ipfs" then .ok .ipfs
  else .err (.unknownVariant item_type)

/-- Derived `Deserialize for AggregateKey` (aggregate.rs lines 9-14,
`#[serde(untagged)]`): try the plain string first, then the dict with a `name`
string field. -/
def AggregateKey.deserialize : Json → PResult DeError AggregateKey
  | .str s => .ok (.string s)
  | .obj fields =>
    match (Json.obj fields).getField? (utf8 "name") with
    | some (.str name) => .ok (.dict name)
    | _ => .err .untaggedNoMatch
  | _ => .err .untaggedNoMatch

/-- Derived `Deserialize for AggregateContent` (aggregate.rs lines 25-31):
a required `key` (`AggregateKey`) and a required `content` dictionary.  A JSON
object decodes into the `HashMap<Value, Value>` with its keys as JSON
strings. -/
def AggregateContent.deserialize (j : Json) : PResult DeError AggregateContent :=
  match j with
  | .obj _ =>
    PResult.bind
      (match j.getField? (utf8 "key") with
       | none => .err (.missingField (utf8 "key"))
       | some v => AggregateKey.deserialize v) fun key =>
    PResult.bind
      (match j.getField? (utf8 "content") with
       | none => .err (.missingField (utf8 "content"))
       | some (.obj fields) => .ok (fields.map (fun f => (Json.str f.1, f.2)))
       | some _ => .err .invalidType) fun content =>
    .ok ⟨key, content⟩
  | _ => .err .invalidType

/-- Derived `Deserialize for ForgetContent` (forget.rs lines 5-12): required
`hashes`, defaulted `aggregates` and `reason`. -/
def ForgetContent.deserialize (j : Json) : PResult DeError ForgetContent :=
  match j with
  | .obj _ =>
    PResult.bind
      (match j.getField? (utf8 "hashes") with
       | none => .err (.missingField (utf8 "hashes"))
       | some v => listDeserialize ItemHash.deserialize v) fun hashes =>
    PResult.bind
      (match j.getField? (utf8 "aggregates") with
       | none => .ok []
       | some v => listDeserialize ItemHash.deserialize v) fun aggregates =>
    PResult.bind
      (match j.getField? (utf8 "reason") with
       | none => .ok none
       | some .null => .ok none
       | some v => (strField v).map some) fun reason =>
    .ok ⟨hashes, aggregates, reason⟩
  | _ => .err .invalidType

/-- Derived `Deserialize for PostContent` (post.rs lines 4-21): the flattened
untagged `PostType` (try `Amend` with its `ref` field, then `Other` with its
`type` field) and an optional free-form `content` value. -/
def PostContent.deserialize (j : Json) : PResult DeError PostContent :=
  match j with
  | .obj _ =>
    PResult.bind
      (match j.getField? (utf8 "ref") with
       | some (.str reference) => .ok (.amend reference)
       | _ =>
         match j.getField? (utf8 "type") with
         | some (.str post_type) => .ok (PostType.other post_type)
         | _ => .err .untaggedNoMatch) fun post_type =>
    PResult.bind
      (match j.getField? (utf8 "content") with
       | none => .ok none
       | some .null => .ok none
       | some v => .ok (some v)) fun content =>
    .ok ⟨post_type, content⟩
  | _ => .err .invalidType

/-- `Deserialize for InstanceContent` as modelled (see `InstanceContent`): the
raw JSON payload object is retained. -/
def InstanceContent.deserialize : Json → PResult DeError InstanceContent
  | .obj fields => .ok ⟨fields⟩
  | _ => .err .invalidType

/-- `Deserialize for ProgramContent` as modelled (see `ProgramContent`): the
raw JSON payload object is retained. -/
def ProgramContent.deserialize : Json → PResult DeError ProgramContent
  | .obj fields => .ok ⟨fields⟩
  | _ => .err .invalidType

/-- `Deserialize for StoreContent` as modelled (see `StoreContent`): the raw
JSON payload object is retained. -/
def StoreContent.deserialize : Json → PResult DeError StoreContent
  | .obj fields => .ok ⟨fields⟩
  | _ => .err .invalidType

/-- The content phase of the Message deserializer (base_message.rs lines
277-297): the message-type discriminant decoded in the envelope phase selects
exactly one variant decoder for the raw content payload; its error is wrapped
with `de::Error::custom` and surfaced. -/
def decodeVariant : MessageType → Json → PResult DeError MessageContentEnum
  | .aggregate, v => ((AggregateContent.deserialize v).map .aggregate).mapErr deCustom
  | .forget, v => ((ForgetContent.deserialize v).map .forget).mapErr deCustom
  | .instanceTy, v => ((InstanceContent.deserialize v).map .inst).mapErr deCustom
  | .post, v => ((PostContent.deserialize v).map .post).mapErr deCustom
  | .program, v => ((ProgramContent.deserialize v).map .program).mapErr deCustom
  | .store, v => ((StoreContent.deserialize v).map .store).mapErr deCustom

/-- The envelope phase of the Message deserializer: the `MessageRaw` helper
struct (base_message.rs lines 252-268). -/
structure MessageRaw where
  chain : Chain
  sender : Address
  signature : Signature
  content_source : ContentSource
  item_hash : ItemHash
  confirmations : Option (List MessageConfirmation)
  time : Timestamp
  channel : Option Channel
  message_type : MessageType
  content : Json

/-- Decoding of `MessageRaw` from the top-level JSON object: required fields
produce missing-field errors; `confirmations` and `channel` are defaulted
optionals; `content_source` is flattened, i.e. read from the same object;
`content` is kept as the raw, not-yet-typed payload. -/
def MessageRaw.deserialize (j : Json) : PResult DeError MessageRaw :=
  match j with
  | .obj _ =>
    PResult.bind
      (match j.getField? (utf8 "chain") with
       | none => .err (.missingField (utf8 "chain"))
       | some v => Chain.deserialize v) fun chain =>
    PResult.bind
      (match j.getField? (utf8 "sender") with
       | none => .err (.missingField (utf8 "sender"))
       | some v => (strField v).map Address.mk) fun sender =>
    PResult.bind
      (match j.getField? (utf8 "signature") with
       | none => .err (.missingField (utf8 "signature"))
       | some v => (strField v).map Signature.mk) fun signature =>
    PResult.bind (ContentSource.deserialize j) fun content_source =>
    PResult.bind
      (match j.getField? (utf8 "item_hash") with
       | none => .err (.missingField (utf8 "item_hash"))
       | some v => ItemHash.deserialize v) fun item_hash =>
    PResult.bind
      (match j.getField? (utf8 "confirmations") with
       | none => .ok none
       | some .null => .ok none
       | some v => (listDeserialize MessageConfirmation.deserialize v).map some)
      fun confirmations =>
    PResult.bind
      (match j.getField? (utf8 "time") with
       | none => .err (.missingField (utf8 "time"))
       | some v => Timestamp.deserialize v) fun time =>
    PResult.bind
      (match j.getField? (utf8 "channel") with
       | none => .ok none
       | some .null => .ok none
       | some v => (strField v).map (some ∘ Channel.mk)) fun channel =>
    PResult.bind
      (match j.getField? (utf8 "type") with
       | none => .err (.missingField (utf8 "type"))
       | some v => MessageType.deserialize v) fun message_type =>
    PResult.bind
      (match j.getField? (utf8 "content") with
       | none => .err (.missingField (utf8 "content"))
       | some v => .ok v) fun content =>
    .ok ⟨chain, sender, signature, content_source, item_hash, confirmations, time,
      channel, message_type, content⟩
  | _ => .err .invalidType

/-- `Deserialize for Message` (base_message.rs lines 247-316): decode the
envelope (`MessageRaw`), pull the cross-cutting `address` and `time` out of the
raw content payload by bracket indexing (a missing key or non-object yields
`Null`, whose decode fails, wrapped by `de::Error::custom`), then decode the
variant selected by the message-type discriminant, and assemble the `Message`
with `confirmations.unwrap_or_default()`. -/
def Message.deserialize (j : Json) : PResult DeError Message :=
  PResult.bind (MessageRaw.deserialize j) fun raw =>
  PResult.bind
    (((strField (raw.content.index (utf8 "address"))).map Address.mk).mapErr deCustom)
    fun address =>
  PResult.bind ((Timestamp.deserialize (raw.content.index (utf8 "time"))).mapErr deCustom)
    fun time =>
  PResult.bind (decodeVariant raw.message_type raw.content) fun variant =>
  .ok
    { chain := raw.chain
      sender := raw.sender
      signature := raw.signature
      content_source := raw.content_source
      item_hash := raw.item_hash
      confirmations := raw.confirmations.getD []
      time := raw.time
      channel := raw.channel
      message_type := raw.message_type
      content := ⟨address, time, variant⟩ }

/-- Serialization errors (serde_json::Error on the encode side).  The only
failure reachable from the types in this model is a map key that is not a
string (the aggregate content dictionary admits arbitrary JSON keys). -/
inductive SerError where
  | keyMustBeString : SerError
deriving DecidableEq

/-- `Serialize for Timestamp` (timestamp.rs lines 24-35): the float value is
re-read as a JSON number and emitted as a bare numeric literal. -/
def Timestamp.serialize (t : Timestamp) : Json :=
  .num t.val

/-- `Serialize for ItemHash`: the native hash serializes as its lowercase hex
display; a CID serializes as its stored string. -/
def ItemHash.serialize (h : ItemHash) : Json :=
  .str h.display

/-- Derived `Serialize for MessageConfirmation` (base_message.rs lines
99-106), fields in declaration order; `Option` fields serialize as null when
absent. -/
def MessageConfirmation.serialize (c : MessageConfirmation) : Json :=
  .obj
    [(utf8 "chain", .str c.chain.wireName),
     (utf8 "height", .num (mkRat c.height 1)),
     (utf8 "hash", .str c.hash),
     (utf8 "time", match c.time with | none => .null | some t => t.serialize),
     (utf8 "publisher", match c.publisher with | none => .null | some a => .str a.str)]

/-- Derived `Serialize for AggregateKey` (untagged): the plain string or the
dict with its `name` field. -/
def AggregateKey.serialize : AggregateKey → Json
  | .string key => .str key
  | .dict name => .obj [(utf8 "name", .str name)]

/-- Serialization of the aggregate content dictionary
(`HashMap<Value, Value>`): serde_json requires every map key to be a string
and fails otherwise. -/
def serializeJsonMap : List (Json × Json) → Except SerError (List (Str × Json))
  | [] => .ok []
  | (.str k, v) :: rest => (serializeJsonMap rest).map ((k, v) :: ·)
  | (_, _) :: _ => .error .keyMustBeString

/-- Derived `Serialize for AggregateContent` (aggregate.rs lines 25-31): the
`key` and `content` fields. -/
def AggregateContent.serialize (c : AggregateContent) : Except SerError (List (Str × Json)) :=
  (serializeJsonMap c.content).map fun fields =>
    [(utf8 "key", c.key.serialize), (utf8 "content", .obj fields)]

/-- Derived `Serialize for ForgetContent` (forget.rs lines 5-12). -/
def ForgetContent.serialize (c : ForgetContent) : List (Str × Json) :=
  [(utf8 "hashes", .arr (c.hashes.map ItemHash.serialize)),
   (utf8 "aggregates", .arr (c.aggregates.map ItemHash.serialize)),
   (utf8 "reason", match c.reason with | none => .null | some r => .str r)]

/-- Derived `Serialize for PostContent` (post.rs lines 16-21): the flattened
`PostType` field (`ref` for Amend, `type` for Other) then `content`. -/
def PostContent.serialize (c : PostContent) : List (Str × Json) :=
  (match c.post_type with
   | .amend reference => [(utf8 "ref", Json.str reference)]
   | .other post_type => [(utf8 "type", Json.str post_type)]) ++
  [(utf8 "content", match c.content with | none => .null | some v => v)]

/-- Serialization of the content variant of a message (untagged: the selected
variant's own fields).  The instance, program and store payloads are the
retained JSON objects (see their type definitions). -/
def MessageContentEnum.serialize : MessageContentEnum → Except SerError (List (Str × Json))
  | .aggregate c => c.serialize
  | .forget c => .ok c.serialize
  | .inst c => .ok c.payload
  | .post c => .ok c.serialize
  | .program c => .ok c.payload
  | .store c => .ok c.payload

/-- Derived `Serialize for MessageContent` (base_message.rs lines 91-97):
`address`, `time`, then the `#[serde(flatten)]`-ed variant fields, in that
order. -/
def MessageContent.serialize (mc : MessageContent) : Except SerError Json :=
  (mc.content.serialize).map fun variantFields =>
    .obj ([(utf8 "address", .str mc.address.str), (utf8 "time", mc.time.serialize)] ++
      variantFields)

/-- `Serialize for Message` (base_message.rs lines 319-348): the twelve fields
of the struct serializer, in emission order.  Every field is emitted
unconditionally; `item_content` is the inline string or null, `item_type` is
the lowercase source tag, `type` the uppercase message tag, `channel` null
when absent, `confirmed` the non-emptiness of the confirmations list, and
`confirmations` the (possibly empty) list. -/
def Message.serialize (m : Message) : Except SerError (List (Str × Json)) :=
  (m.content.serialize).map fun contentJson =>
    [(utf8 "sender", .str m.sender.str),
     (utf8 "chain", .str m.chain.wireName),
     (utf8 "signature", .str m.signature.str),
     (utf8 "type", .str m.message_type.wireName),
     (utf8 "item_content",
       match m.content_source with
       | .inlineSource item_content => .str item_content
       | .storage => .null
       | .ipfs => .null),
     (utf8 "item_hash", m.item_hash.serialize),
     (utf8 "item_type", .str
       (match m.content_source with
        | .inlineSource _ => utf8 "inline"
        | .storage => utf8 "storage"
        | .ipfs => utf8 "ipfs")),
     (utf8 "time", m.time.serialize),
     (utf8 "channel", match m.channel with | none => .null | some c => .str c.str),
     (utf8 "content", contentJson),
     (utf8 "confirmed", .bool m.confirmed),
     (utf8 "confirmations", .arr (m.confirmations.map MessageConfirmation.serialize))]

/-- `MessageVerificationError` (base_message.rs lines 18-27). -/
inductive MessageVerificationError where
  | itemHashVerificationFailed (expected actual : ItemHash) : MessageVerificationError
  | serializationError (e : SerError) : MessageVerificationError
deriving DecidableEq

/-- `Message::compute_item_hash` (base_message.rs lines 208-229), with the data
written to stdout.  First match: the canonical byte string is the inline
content for `Inline`, and the compact serde_json rendering of the content
wrapper for `Storage` and `Ipfs` — in the latter case the source also prints
the serialized string twice with `println!` (its text form and its byte-array
form; the model records the payload written by each line).  Second match:
`Inline` and `Storage` hash the bytes with the native SHA-256 digest
(`AlephItemHash::from_bytes`), `Ipfs` with the CIDv0 digest
(`CidV0::from_bytes`). -/
def Message.computeItemHashOutput (m : Message) : Except SerError ItemHash × List Str :=
  let ser : Except SerError Str × List Str :=
    match m.content_source with
    | .inlineSource item_content => (.ok item_content, [])
    | .storage | .ipfs =>
      match m.content.serialize with
      | .error e => (.error e, [])
      | .ok cj =>
        let s := jsonToStr cj
        (.ok s, [s, s])
  match ser.1 with
  | .error e => (.error e, ser.2)
  | .ok s =>
    (match m.content_source with
     | .inlineSource _ | .storage => .ok (.native (AlephItemHash.fromBytes s))
     | .ipfs => .ok (.ipfs (.v0 (CidV0.fromBytes s))), ser.2)

/-- The value computed by `Message::compute_item_hash`, without the stdout
record. -/
def Message.computeItemHash (m : Message) : Except SerError ItemHash :=
  (m.computeItemHashOutput).1

/-- `Message::verify_item_hash` (base_message.rs lines 232-243): recompute the
item hash (a serialization failure becomes `SerializationError` via `?`); a
computed hash different from the stored one is an
`ItemHashVerificationFailed { expected: stored, actual: computed }` error;
otherwise `Ok(())`. -/
def Message.verifyItemHash (m : Message) : Except MessageVerificationError Unit :=
  match m.computeItemHash with
  | .error e => .error (.serializationError e)
  | .ok actual =>
    if actual ≠ m.item_hash then
      .error (.itemHashVerificationFailed m.item_hash actual)
    else .ok ()

/-- `TimestampError` (timestamp.rs lines 8-14). -/
inductive TimestampError where
  | outOfBounds : TimestampError
  | parseError : TimestampError
deriving DecidableEq

/-- A UTC datetime as chrono exposes it: calendar date and clock time with
nanoseconds. -/
structure DateTimeUtc where
  year : Int
  month : Nat
  day : Nat
  hour : Nat
  minute : Nat
  second : Nat
  nanosecond : Nat
deriving DecidableEq

/-- Civil calendar date from days since 1970-01-01 (proleptic Gregorian;
Howard Hinnant's algorithm, the one underlying chrono's conversions). -/
def civilFromDays (z0 : Int) : Int × Nat × Nat :=
  let z := z0 + 719468
  let era : Int := z.fdiv 146097
  let doe : Nat := (z - era * 146097).toNat
  let yoe : Nat := (doe - doe / 1460 + doe / 36524 - doe / 146096) / 365
  let doy : Nat := doe - (365 * yoe + yoe / 4 - yoe / 100)
  let mp : Nat := (5 * doy + 2) / 153
  let d : Nat := doy - (153 * mp + 2) / 5 + 1
  let m : Nat := if mp < 10 then mp + 3 else mp - 9
  (era * 400 + yoe + (if m ≤ 2 then 1 else 0), m, d)

/-- chrono `Utc.timestamp_opt(secs, nsecs)`: `none` (LocalResult::None) outside
chrono's representable datetime range — its minimum and maximum UTC datetimes
have these epoch-second values — or for a nanosecond count of 2,000,000,000 or
more; a UTC lookup is never ambiguous. -/
def timestampOpt (secs : Int) (nsecs : Nat) : Option DateTimeUtc :=
  if secs < -8334632851200 ∨ 8210298412799 < secs ∨ 1999999999 < nsecs then none
  else
    let days := secs.fdiv 86400
    let rem := (secs - days * 86400).toNat
    let ymd := civilFromDays days
    some ⟨ymd.1, ymd.2.1, ymd.2.2, rem / 3600, rem % 3600 / 60, rem % 60, nsecs⟩

/-- `Timestamp::to_datetime` (timestamp.rs lines 118-132): floor to whole
seconds (the `as i64` cast saturates at the i64 bounds), round the fractional
part to nanoseconds (Rust `f64::round`, half away from zero — the fraction is
non-negative, so floor of the value plus one half), clamp to at most
999,999,999, and look the result up as a UTC timestamp; an out-of-range lookup
is an `OutOfBounds` error.  The float arithmetic is carried out exactly on the
rational value (file header). -/
def Timestamp.toDatetime (t : Timestamp) : Except TimestampError DateTimeUtc :=
  let q := t.val
  let fl : Int := q.num.fdiv q.den
  let secs : Int := max (-9223372036854775808) (min 9223372036854775807 fl)
  let fracNum : Nat := (q.num - fl * q.den).toNat
  let nsecs : Nat := min ((2 * fracNum * 1000000000 + q.den) / (2 * q.den)) 999999999
  match timestampOpt secs nsecs with
  | some dt => .ok dt
  | none => .error .outOfBounds

/-- `Rounding` (memory_size.rs lines 4-9). -/
inductive Rounding where
  | floor | ceil | nearest
deriving DecidableEq

/-- `MemConvError` (memory_size.rs lines 11-18). -/
inductive MemConvError where
  | overflow : MemConvError
  | zeroNotAllowed : MemConvError
deriving DecidableEq

/-- The unsigned 64-bit integers. -/
abbrev U64 := {n : Nat // n < 18446744073709551616}

/-- `u64::checked_mul`: `none` when the product leaves the u64 range. -/
def u64CheckedMul (a b : U64) : Option U64 :=
  if h : a.val * b.val < 18446744073709551616 then some ⟨a.val * b.val, h⟩ else none

/-- `MiB` (memory_size.rs, `mem_unit!(MiB, 1024*1024)`): a count of mebibyte
units. -/
structure MiB where
  units : U64
deriving DecidableEq

/-- `Bytes` (memory_size.rs lines 99-117): a raw byte count. -/
structure Bytes where
  units : U64
deriving DecidableEq

/-- `MiB::BYTES_PER_UNIT` = 1024 * 1024. -/
def mibBytesPerUnit : U64 := ⟨1048576, by norm_num⟩

/-- `Bytes::BYTES_PER_UNIT` = 1. -/
def bytesBytesPerUnit : U64 := ⟨1, by norm_num⟩

/-- `MemorySize::to_bytes` for `MiB` (memory_size.rs lines 38-45): checked
multiply of the unit count by the unit's byte size; overflow is an error
(`Bytes::from_units_checked` itself always succeeds). -/
def MiB.toBytes (u : MiB) : Except MemConvError Bytes :=
  match u64CheckedMul u.units mibBytesPerUnit with
  | some b => .ok ⟨b⟩
  | none => .error .overflow

/-- `MemorySize::to_bytes` for `Bytes`: checked multiply by 1. -/
def Bytes.toBytes (b : Bytes) : Except MemConvError Bytes :=
  match u64CheckedMul b.units bytesBytesPerUnit with
  | some v => .ok ⟨v⟩
  | none => .error .overflow

/-- `MemorySize::to_exact::<MiB>` called on a `Bytes` value (memory_size.rs
lines 73-81): convert to bytes, succeed only when the byte value is an exact
multiple of the target unit size. -/
def Bytes.toExactMiB (b : Bytes) : Option MiB :=
  match b.toBytes with
  | .error _ => none
  | .ok bb =>
    if bb.units.val % 1048576 = 0 then
      some ⟨⟨bb.units.val / 1048576, lt_of_le_of_lt (Nat.div_le_self _ _) bb.units.prop⟩⟩
    else none

/-- The composite expression of claim C8 / spec P4,
`u.to_bytes().to_exact::<MiB>()`: no value when `to_bytes` overflows. -/
def mibRoundTrip (u : MiB) : Option MiB :=
  match MiB.toBytes u with
  | .ok b => b.toExactMiB
  | .error _ => none

/-- `RemovalReason` (client.rs lines 56-61). -/
inductive RemovalReason where
  | balanceInsufficient | creditInsufficient
deriving DecidableEq

/-- `PendingMessage` (client.rs lines 63-74). -/
structure PendingMessage where
  sender : Address
  chain : Chain
  signature : Option Signature
  content_source : ContentSource
  message_type : MessageType
  item_hash : ItemHash
  time : Timestamp
  channel : Option Channel
  content : Option (List (Str × Json))

/-- `RejectedMessage` (client.rs lines 76-87). -/
structure RejectedMessage where
  sender : Address
  chain : Chain
  signature : Option Signature
  message_type : MessageType
  item_hash : ItemHash
  time : Timestamp
  channel : Option Channel
  content : Option (List (Str × Json))

/-- `ForgottenMessage` (client.rs lines 89-99): its `time` is a
`DateTime<Utc>`. -/
structure ForgottenMessage where
  sender : Address
  chain : Chain
  signature : Option Signature
  message_type : MessageType
  item_hash : ItemHash
  time : DateTimeUtc
  channel : Option Channel

/-- `MessageWithStatus` (client.rs lines 101-126): the status-tagged response
wrapper with its six variants and their payload shapes. -/
inductive MessageWithStatus where
  | pending (messages : List PendingMessage) : MessageWithStatus
  | processed (message : Message) : MessageWithStatus
  | removing (message : Message) (reason : RemovalReason) : MessageWithStatus
  | removed (message : Message) (reason : RemovalReason) : MessageWithStatus
  | forgotten (message : ForgottenMessage) (forgotten_by : List ItemHash) : MessageWithStatus
  | rejected (message : RejectedMessage) (error_code : Int) : MessageWithStatus

/-- `MessageWithStatus::status` (client.rs lines 129-140).  The source maps
each variant to the same-named `MessageStatus` variant; its `Rejected` arm
names `MessageStatus::Rejected`, a variant that the `MessageStatus` enum
declared in base_message.rs (lines 55-63) does not have, so that arm has no
value to produce — the model returns `none` there and `some` of the declared
variant everywhere else. -/
def MessageWithStatus.status : MessageWithStatus → Option MessageStatus
  | .pending _ => some .pending
  | .processed _ => some .processed
  | .removing _ _ => some .removing
  | .removed _ _ => some .removed
  | .forgotten _ _ => some .forgotten
  | .rejected _ _ => none

/-- Whether a `MessageWithStatus` value is the Rejected variant. -/
def MessageWithStatus.isRejected : MessageWithStatus → Bool
  | .rejected _ _ => true
  | _ => false

/-- The message-type tag corresponding to a decoded content variant. -/
def MessageContentEnum.tagOf : MessageContentEnum → MessageType
  | .aggregate _ => .aggregate
  | .forget _ => .forget
  | .inst _ => .instanceTy
  | .post _ => .post
  | .program _ => .program
  | .store _ => .store

/-- Whether a byte is an ASCII hex digit (either case). -/
def isHexDigitByte (b : Nat) : Bool :=
  (hexVal b).isSome

/-- Whether a byte is a lowercase-form hex digit: a decimal digit or `a`-`f`. -/
def isLowerHexByte (b : Nat) : Bool :=
  (decide (0x30 ≤ b) && decide (b ≤ 0x39)) || (decide (0x61 ≤ b) && decide (b ≤ 0x66))

/-- Whether a byte is an uppercase hex letter `A`-`F`. -/
def isUpperHexLetter (b : Nat) : Bool :=
  decide (0x41 ≤ b) && decide (b ≤ 0x46)

/-- Lowercasing of a hex-digit byte: uppercase letters `A`-`F` shift by 32,
all other bytes are unchanged. -/
def lowerHexByte (b : Nat) : Nat :=
  if 0x41 ≤ b ∧ b ≤ 0x46 then b + 32 else b

/-- Structural restatement of the byte-pair decode loop: consume the string
two bytes at a time through `u8::from_str_radix(_, 16)`; `none` on any failing
pair (or a dangling odd byte).  Proved below to agree with `alephHexPairs` on
ASCII inputs of length 64. -/
def decodeHexPairs : Str → Option (List Nat)
  | [] => some []
  | b1 :: b2 :: rest =>
    (u8FromStrRadix16 [b1, b2]).bind fun b => (decodeHexPairs rest).map (b :: ·)
  | [_] => none

/-- The observable outcome of identifier parsing: which variant was produced,
an error, or a panic. -/
inductive ParseOutcome where
  | nativeOut | v0Out | v1Out | errorOut | panicOut
deriving DecidableEq

/-- The outcome of an `ItemHash::try_from` result. -/
def outcomeOf : PResult ItemHashError ItemHash → ParseOutcome
  | .ok (.native _) => .nativeOut
  | .ok (.ipfs (.v0 _)) => .v0Out
  | .ok (.ipfs (.v1 _)) => .v1Out
  | .err _ => .errorOut
  | .panicked => .panicOut

/-- The CID recognition rules as both the claim and the code state them:
empty string is an error; the `"Qm"` shape with length 46 is V0; length above
1 with a recognised multibase first character is V1; otherwise an error. -/
def cidClassifyOutcome (s : Str) : ParseOutcome :=
  if s.isEmpty then .errorOut
  else if s.take 2 = [0x51, 0x6D] ∧ s.length = 46 then .v0Out
  else if s.length > 1 ∧ s.headI ∈ multibaseFirstBytes then .v1Out
  else .errorOut

/-- The classification exactly as claim C2 states it: Native means exactly 64
hex characters; otherwise the CID rules; otherwise an error — and never a
panic. -/
def claimC2Classify (s : Str) : ParseOutcome :=
  if s.length = 64 ∧ s.all isHexDigitByte then .nativeOut
  else cidClassifyOutcome s

/-- A byte pair accepted by `u8::from_str_radix(_, 16)`: two hex digits in
either case, or a leading `+` followed by one hex digit. -/
def pairAccepted (b1 b2 : Nat) : Bool :=
  (isHexDigitByte b1 && isHexDigitByte b2) || (decide (b1 = 0x2B) && isHexDigitByte b2)

/-- All aligned byte pairs of the string are accepted (false for an odd
trailing byte). -/
def pairsAccepted : Str → Bool
  | [] => true
  | b1 :: b2 :: rest => pairAccepted b1 b2 && pairsAccepted rest
  | [_] => false

/-- The classification as amended: Native accepts exactly the 64-byte strings
all of whose aligned byte pairs are accepted by the radix-16 `u8` parse (which
admits a per-pair leading `+`); the CID rules are unchanged. -/
def amendedC2Classify (s : Str) : ParseOutcome :=
  if s.length = 64 ∧ pairsAccepted s then .nativeOut
  else cidClassifyOutcome s

/-- 32 copies of the byte pair `+a`: a 64-byte ASCII string that is not made
of 64 hex characters yet native-decodes, because every aligned pair parses
under the radix-16 `u8` rule. -/
def plusPairsInput : Str :=
  (List.replicate 32 ([0x2B, 0x61] : Str)).flatten

/-- A 64-byte UTF-8 string (`a`, `é`, then 61 `a`s) whose byte 2 falls inside
the two-byte character `é`: the slice of the first pair hits a non-character
boundary, so the native decode panics. -/
def hexPanicInput : Str :=
  0x61 :: 0xC3 :: 0xA9 :: List.replicate 61 0x61

/-- A 64-character mixed-case hex string used as a concrete witness input. -/
def upperHexInput : Str :=
  utf8 "ABCDEF0123456789ABCDEF0123456789ABCDEF0123456789ABCDEF0123456789"

/-- A 64-character lowercase hex string used as a concrete witness input. -/
def lowerHexInput : Str :=
  utf8 "3c5b05761c8f94a7b8fe6d0d43e5fb91f9689c53c078a870e5e300c7da8a1878"

/-- A concrete decoded inline POST message with no confirmations and no
channel, used to exhibit the serializer's emission behaviour. -/
def mPost : Message :=
  { chain := .ethereum
    sender := ⟨utf8 "0xB68B9D4f3771c246233823ed1D3Add451055F9Ef"⟩
    signature := ⟨utf8 "0xsig"⟩
    content_source := .inlineSource (utf8 "test")
    item_hash := .native ⟨List.replicate 32 0⟩
    confirmations := []
    time := ⟨mkRat 3 2⟩
    channel := none
    message_type := .post
    content :=
      ⟨⟨utf8 "0xB68B9D4f3771c246233823ed1D3Add451055F9Ef"⟩, ⟨mkRat 3 2⟩,
        .post ⟨.other (utf8 "x"), none⟩⟩ }

/-- A concrete inline message, used to exhibit that the inline hash path
writes nothing to stdout. -/
def mInline6 : Message :=
  { chain := .ethereum
    sender := ⟨utf8 "0xa"⟩
    signature := ⟨utf8 "0xs"⟩
    content_source := .inlineSource (utf8 "hello")
    item_hash := .native ⟨List.replicate 32 0⟩
    confirmations := []
    time := ⟨mkRat 1 1⟩
    channel := none
    message_type := .post
    content := ⟨⟨utf8 "0xa"⟩, ⟨mkRat 1 1⟩, .post ⟨.other (utf8 "x"), none⟩⟩ }

/-- A concrete Storage-sourced aggregate message, used to exhibit that the
storage hash path prints the serialized content. -/
def mStorage6 : Message :=
  { chain := .ethereum
    sender := ⟨utf8 "0xa"⟩
    signature := ⟨utf8 "0xs"⟩
    content_source := .storage
    item_hash := .native ⟨List.replicate 32 0⟩
    confirmations := []
    time := ⟨mkRat 1 1⟩
    channel := none
    message_type := .aggregate
    content :=
      ⟨⟨utf8 "0xa"⟩, ⟨mkRat 1 1⟩, .aggregate ⟨.string (utf8 "k"), []⟩⟩ }

/-- A complete raw message JSON whose type tag is `AGGREGATE` but whose content
payload lacks the required `key` field. -/
def aggNoKeyJson : Json :=
  .obj
    [(utf8 "chain", .str (utf8 "ETH")),
     (utf8 "sender", .str (utf8 "0xa")),
     (utf8 "signature", .str (utf8 "0xs")),
     (utf8 "item_type", .str (utf8 "storage")),
     (utf8 "item_hash",
       .str (utf8 "0000000000000000000000000000000000000000000000000000000000000000")),
     (utf8 "time", .num (mkRat 1 1)),
     (utf8 "type", .str (utf8 "AGGREGATE")),
     (utf8 "content",
       .obj
         [(utf8 "address", .str (utf8 "0xa")),
          (utf8 "time", .num (mkRat 1 1)),
          (utf8 "content", .obj [])])]

/-- C4: deriving the coarse status from a `MessageWithStatus` value is claimed
to be a total, infallible projection onto a six-variant `MessageStatus`; on
the code as given, the projection has no value exactly on the Rejected
variant, because the `MessageStatus` enum declares only five variants (no
Rejected) while `MessageWithStatus::status` must produce
`MessageStatus::Rejected` there. -/
theorem c4_status_projection_not_total :
    ∀ w : MessageWithStatus, w.status = none ↔ w.isRejected = true := by
  intro w
  cases w <;> simp [MessageWithStatus.status, MessageWithStatus.isRejected]

/-- C9: decoding the JSON number 1635789600.5 and the JSON string
"1635789600.5" yields the same Timestamp (the exact value 3271579201/2), and
`to_datetime` on it is the UTC datetime 2021-11-01T18:00:00.500Z. -/
theorem c9_timestamp_multi_format :
    Timestamp.deserialize (.num (mkRat 3271579201 2)) = .ok ⟨mkRat 3271579201 2⟩ ∧
    Timestamp.deserialize (.str (utf8 "1635789600.5")) = .ok ⟨mkRat 3271579201 2⟩ ∧
    Timestamp.toDatetime ⟨mkRat 3271579201 2⟩ =
      .ok ⟨2021, 11, 1, 18, 0, 0, 500000000⟩ := by
  refine ⟨rfl, by decide, by rfl⟩

/-- C8 counterexample: for the MiB value 2^44, `to_bytes` overflows the u64
range (2^44 * 2^20 = 2^64), so the claimed round-trip
`u.to_bytes().to_exact::<MiB>() == Some(u)` fails — the composite yields no
value at all. -/
theorem c8_roundtrip_counterexample :
    mibRoundTrip ⟨⟨17592186044416, by norm_num⟩⟩ ≠ some ⟨⟨17592186044416, by norm_num⟩⟩ := by
  decide

/-- C8 as amended: for every MiB value whose byte count stays inside the u64
range, converting to bytes and back with the exact conversion recovers the
value. -/
theorem c8_roundtrip_amended :
    ∀ u : MiB, u.units.val * 1048576 < 18446744073709551616 →
      mibRoundTrip u = some u := by
  intro u h
  unfold mibRoundTrip
  have h1 : MiB.toBytes u = .ok ⟨⟨u.units.val * 1048576, h⟩⟩ := by
    simp [MiB.toBytes, u64CheckedMul, mibBytesPerUnit, h]
  rw [h1]
  have h2 : (Bytes.mk ⟨u.units.val * 1048576, h⟩).toBytes =
      .ok ⟨⟨u.units.val * 1048576, h⟩⟩ := by
    simp [Bytes.toBytes, u64CheckedMul, bytesBytesPerUnit, h]
  simp only [Bytes.toExactMiB, h2, Nat.mul_mod_left, if_pos rfl]
  have h3 : u.units.val * 1048576 / 1048576 = u.units.val :=
    Nat.mul_div_cancel _ (by norm_num)
  cases u with
  | mk units =>
    cases units with
    | mk v hv => simp [h3]

/-- C8 witness: the amended round-trip at the concrete value 5 MiB. -/
theorem c8_roundtrip_witness :
    mibRoundTrip ⟨⟨5, by norm_num⟩⟩ = some ⟨⟨5, by norm_num⟩⟩ :=
  c8_roundtrip_amended ⟨⟨5, by norm_num⟩⟩ (by norm_num)

/-- C1: `verify_item_hash` recomputes the canonical hash according to the
content source — Inline: native SHA-256 of the inline content bytes; Storage:
native SHA-256 of the serde_json re-serialization of the content wrapper;
Ipfs: the CIDv0 digest of that same re-serialization — and returns `Ok(())`
exactly when the computed hash equals (structurally) the stored `item_hash`;
a mismatch yields the verification error carrying the stored hash as
`expected` and the computed one as `actual` (and a serialization failure is
reported as a distinct serialization error). -/
theorem c1_verify_item_hash :
    ∀ m : Message,
      (∀ h, m.computeItemHash = .ok h →
        ((m.verifyItemHash = .ok () ↔ h = m.item_hash) ∧
         (h ≠ m.item_hash →
           m.verifyItemHash = .error (.itemHashVerificationFailed m.item_hash h)))) ∧
      (∀ e, m.computeItemHash = .error e →
        m.verifyItemHash = .error (.serializationError e)) ∧
      (∀ ic, m.content_source = .inlineSource ic →
        m.computeItemHash = .ok (.native (AlephItemHash.fromBytes ic))) ∧
      (∀ cj, m.content.serialize = .ok cj →
        (m.content_source = .storage →
          m.computeItemHash = .ok (.native (AlephItemHash.fromBytes (jsonToStr cj)))) ∧
        (m.content_source = .ipfs →
          m.computeItemHash = .ok (.ipfs (.v0 (CidV0.fromBytes (jsonToStr cj)))))) := by
  intro m
  refine ⟨?_, ?_, ?_, ?_⟩
  · intro h hcomp
    constructor
    · constructor
      · intro hok
        by_contra hne
        simp [Message.verifyItemHash, hcomp, hne] at hok
      · intro heq
        simp [Message.verifyItemHash, hcomp, heq]
    · intro hne
      simp [Message.verifyItemHash, hcomp, hne]
  · intro e hcomp
    simp [Message.verifyItemHash, hcomp]
  · intro ic hsrc
    simp [Message.computeItemHash, Message.computeItemHashOutput, hsrc]
  · intro cj hser
    constructor
    · intro hsrc
      simp [Message.computeItemHash, Message.computeItemHashOutput, hsrc, hser]
    · intro hsrc
      simp [Message.computeItemHash, Message.computeItemHashOutput, hsrc, hser]

/-- C5 counterexample: the concrete inline message `mPost` has an empty
confirmations list and no channel, yet its serialization emits the `channel`
field (as null), the `confirmed` flag (false) and the empty `confirmations`
list — the claim says those are emitted only when a channel is present
respectively when the list is non-empty. -/
theorem c5_serialize_counterexample :
    mPost.confirmations = [] ∧ mPost.channel = none ∧
    Message.serialize mPost =
      .ok
        [(utf8 "sender", .str (utf8 "0xB68B9D4f3771c246233823ed1D3Add451055F9Ef")),
         (utf8 "chain", .str (utf8 "ETH")),
         (utf8 "signature", .str (utf8 "0xsig")),
         (utf8 "type", .str (utf8 "POST")),
         (utf8 "item_content", .str (utf8 "test")),
         (utf8 "item_hash",
           .str (utf8 "0000000000000000000000000000000000000000000000000000000000000000")),
         (utf8 "item_type", .str (utf8 "inline")),
         (utf8 "time", .num (mkRat 3 2)),
         (utf8 "channel", .null),
         (utf8 "content",
           .obj
             [(utf8 "address", .str (utf8 "0xB68B9D4f3771c246233823ed1D3Add451055F9Ef")),
              (utf8 "time", .num (mkRat 3 2)),
              (utf8 "type", .str (utf8 "x")),
              (utf8 "content", .null)]),
         (utf8 "confirmed", .bool false),
         (utf8 "confirmations", .arr [])] :=
  ⟨rfl, rfl, rfl⟩

/-- C5 as amended: serialization emits all twelve fields unconditionally, in
the order sender, chain, signature, type, item_content, item_hash, item_type,
time, channel, content, confirmed, confirmations; the type tag is upper-case,
item_type is the lower-case source tag, item_content is the inline string for
the Inline source and null otherwise, channel is null when absent, confirmed
is the non-emptiness of the confirmations list, and the confirmations list is
emitted even when empty. -/
theorem c5_serialize_amended :
    ∀ m : Message,
      (m.confirmed = true ↔ m.confirmations ≠ []) ∧
      ∀ fields, Message.serialize m = .ok fields →
        ∃ contentJson, m.content.serialize = .ok contentJson ∧
          fields =
            [(utf8 "sender", .str m.sender.str),
             (utf8 "chain", .str m.chain.wireName),
             (utf8 "signature", .str m.signature.str),
             (utf8 "type", .str m.message_type.wireName),
             (utf8 "item_content",
               match m.content_source with
               | .inlineSource item_content => .str item_content
               | .storage => .null
               | .ipfs => .null),
             (utf8 "item_hash", m.item_hash.serialize),
             (utf8 "item_type", .str
               (match m.content_source with
                | .inlineSource _ => utf8 "inline"
                | .storage => utf8 "storage"
                | .ipfs => utf8 "ipfs")),
             (utf8 "time", m.time.serialize),
             (utf8 "channel", match m.channel with | none => .null | some c => .str c.str),
             (utf8 "content", contentJson),
             (utf8 "confirmed", .bool m.confirmed),
             (utf8 "confirmations", .arr (m.confirmations.map MessageConfirmation.serialize))] := by
  intro m
  constructor
  · cases hc : m.confirmations <;> simp [Message.confirmed, hc]
  · intro fields h
    unfold Message.serialize at h
    cases hc : m.content.serialize with
    | error e => rw [hc] at h; simp [Except.map] at h
    | ok cj =>
      rw [hc] at h
      simp only [Except.map, Except.ok.injEq] at h
      exact ⟨cj, rfl, h.symm⟩

/-- C6: the hash computation writes its debug output to stdout on the
Storage path (two `println!` lines carrying the serialized content) but not on
the Inline path — evaluated at the concrete messages `mStorage6` and
`mInline6`. -/
theorem c6_stdout_output :
    (Message.computeItemHashOutput mStorage6).2 ≠ [] ∧
    (Message.computeItemHashOutput mInline6).2 = [] := by
  exact ⟨by decide, rfl⟩

/-- A `PResult` bind yields `ok` exactly when both stages do. -/
theorem presult_bind_eq_ok {ε α β : Type} {x : PResult ε α} {f : α → PResult ε β} {b : β} :
    x.bind f = .ok b ↔ ∃ a, x = .ok a ∧ f a = .ok b := by
  cases x <;> simp [PResult.bind]

/-- The content phase decoder produces a variant whose tag is the selecting
message type. -/
theorem decode_variant_ok_tag {t : MessageType} {c : Json} {v : MessageContentEnum}
    (h : decodeVariant t c = .ok v) : v.tagOf = t := by
  cases t
  · cases hx : AggregateContent.deserialize c <;>
      simp [decodeVariant, hx, PResult.map, PResult.mapErr] at h <;>
      simp [← h, MessageContentEnum.tagOf]
  · cases hx : ForgetContent.deserialize c <;>
      simp [decodeVariant, hx, PResult.map, PResult.mapErr] at h <;>
      simp [← h, MessageContentEnum.tagOf]
  · cases hx : InstanceContent.deserialize c <;>
      simp [decodeVariant, hx, PResult.map, PResult.mapErr] at h <;>
      simp [← h, MessageContentEnum.tagOf]
  · cases hx : PostContent.deserialize c <;>
      simp [decodeVariant, hx, PResult.map, PResult.mapErr] at h <;>
      simp [← h, MessageContentEnum.tagOf]
  · cases hx : ProgramContent.deserialize c <;>
      simp [decodeVariant, hx, PResult.map, PResult.mapErr] at h <;>
      simp [← h, MessageContentEnum.tagOf]
  · cases hx : StoreContent.deserialize c <;>
      simp [decodeVariant, hx, PResult.map, PResult.mapErr] at h <;>
      simp [← h, MessageContentEnum.tagOf]

/-- C3: on every successful decode the message-type tag and the content
variant correspond exactly; after a successful envelope phase (including the
cross-cutting address/time extraction) the discriminant selects the single
variant decoder, whose error is surfaced as the decode result and whose value
is installed as the message content; and the concrete AGGREGATE payload
missing its `key` field fails with the decode error naming that field. -/
theorem c3_tag_variant_consistency :
    (∀ j m, Message.deserialize j = .ok m → m.content.content.tagOf = m.message_type) ∧
    (∀ j raw, MessageRaw.deserialize j = .ok raw →
      ∀ addr t,
        ((strField (raw.content.index (utf8 "address"))).map Address.mk).mapErr deCustom
          = .ok addr →
        (Timestamp.deserialize (raw.content.index (utf8 "time"))).mapErr deCustom = .ok t →
        (∀ e, decodeVariant raw.message_type raw.content = .err e →
          Message.deserialize j = .err e) ∧
        (∀ v, decodeVariant raw.message_type raw.content = .ok v →
          Message.deserialize j = .ok
            { chain := raw.chain, sender := raw.sender, signature := raw.signature,
              content_source := raw.content_source, item_hash := raw.item_hash,
              confirmations := raw.confirmations.getD [], time := raw.time,
              channel := raw.channel, message_type := raw.message_type,
              content := ⟨addr, t, v⟩ })) ∧
    Message.deserialize aggNoKeyJson = .err (.missingField (utf8 "key")) := by
  refine ⟨?_, ?_, by rfl⟩
  · intro j m h
    unfold Message.deserialize at h
    rw [presult_bind_eq_ok] at h
    obtain ⟨raw, _, h⟩ := h
    rw [presult_bind_eq_ok] at h
    obtain ⟨addr, _, h⟩ := h
    rw [presult_bind_eq_ok] at h
    obtain ⟨t, _, h⟩ := h
    rw [presult_bind_eq_ok] at h
    obtain ⟨v, hv, h⟩ := h
    simp only [PResult.ok.injEq] at h
    subst h
    simpa using decode_variant_ok_tag hv
  · intro j raw hraw addr t haddr ht
    constructor
    · intro e he
      simp [Message.deserialize, hraw, haddr, ht, he, PResult.bind]
    · intro v hv
      simp [Message.deserialize, hraw, haddr, ht, hv, PResult.bind]

/-- A hex digit's value is below 16. -/
theorem hexVal_lt {b v : Nat} (h : hexVal b = some v) : v < 16 := by
  unfold hexVal at h
  split_ifs at h <;> · injection h with h; omega

/-- A hex digit byte is ASCII, and in particular not `+`. -/
theorem hexVal_isSome_facts {b v : Nat} (h : hexVal b = some v) : b < 0x80 ∧ b ≠ 0x2B := by
  unfold hexVal at h
  split_ifs at h <;> omega

/-- `u8::from_str_radix` on a pair of hex digits: sixteen times the first
value plus the second. -/
theorem u8_pair_of_hex {b1 b2 v1 v2 : Nat} (h1 : hexVal b1 = some v1)
    (h2 : hexVal b2 = some v2) : u8FromStrRadix16 [b1, b2] = some (v1 * 16 + v2) := by
  have hb1 : b1 ≠ 0x2B := (hexVal_isSome_facts h1).2
  have hv1 := hexVal_lt h1
  have hv2 := hexVal_lt h2
  unfold u8FromStrRadix16
  simp [List.head?, hb1, List.foldl, h1, h2, Option.bind, Option.map]
  omega

/-- The two-digit rendering of a value assembled from two hex digit values. -/
theorem byteToHex_of_digits {v1 v2 : Nat} (h1 : v1 < 16) (h2 : v2 < 16) :
    byteToHex (v1 * 16 + v2) = [hexDigitLower v1, hexDigitLower v2] := by
  unfold byteToHex
  have e1 : (v1 * 16 + v2) / 16 % 16 = v1 := by omega
  have e2 : (v1 * 16 + v2) % 16 = v2 := by omega
  rw [e1, e2]

/-- Rendering a parsed hex digit back gives the lowercased input byte. -/
theorem hexDigitLower_hexVal {b v : Nat} (h : hexVal b = some v) :
    hexDigitLower v = lowerHexByte b := by
  unfold hexVal at h
  unfold hexDigitLower lowerHexByte
  split_ifs at h <;> (injection h with h) <;> split_ifs <;> omega

/-- All positions up to the length of an ASCII string are character
boundaries. -/
theorem ascii_char_boundary {s : Str} (h : allAscii s) {j : Nat} (hj : j ≤ s.length) :
    isCharBoundary s j = true := by
  unfold isCharBoundary
  by_cases h0 : j = 0
  · simp [h0]
  by_cases hlen : j = s.length
  · simp [h0, hlen]
  have hlt : j < s.length := by omega
  cases hg : s.get? j with
  | none => rw [List.get?_eq_none] at hg; omega
  | some b =>
    have hb : b < 0x80 := h b (List.get?_mem hg)
    simp [h0, hlen, hg, hb]

/-- On an ASCII string of length 64, the indexed byte-pair loop of the source
agrees with the structural pairwise decode of the remaining suffix (and in
particular never panics). -/
theorem aleph_pairs_eq_decode {s : Str} (ha : allAscii s) (hl : s.length = 64) :
    ∀ n i, 2 * i + 2 * n = 64 →
      alephHexPairs s n i =
        (match decodeHexPairs (s.drop (2 * i)) with
         | some bs => .ok bs
         | none => .err (.invalidHexDigit s)) := by
  intro n
  induction n with
  | zero =>
    intro i hi
    have hdrop : s.drop (2 * i) = [] := by
      apply List.drop_eq_nil_of_le
      omega
    simp [alephHexPairs, hdrop, decodeHexPairs]
  | succ n ih =>
    intro i hi
    have hlt1 : 2 * i < s.length := by omega
    have hlt2 : 2 * i + 1 < s.length := by omega
    have hdrop : s.drop (2 * i) = s[2 * i] :: s[2 * i + 1] :: s.drop (2 * i + 2) := by
      rw [List.drop_eq_getElem_cons hlt1, List.drop_eq_getElem_cons hlt2]
    have hslice : strSlice? s (2 * i) (2 * i + 2) = some [s[2 * i], s[2 * i + 1]] := by
      unfold strSlice?
      rw [if_pos]
      · congr 1
        have h2 : 2 * i + 2 - 2 * i = 2 := by omega
        rw [h2, hdrop]
        rfl
      · refine ⟨by omega, by omega, ?_, ?_⟩
        · exact ascii_char_boundary ha (by omega)
        · exact ascii_char_boundary ha (by omega)
    rw [alephHexPairs, hslice]
    cases hp : u8FromStrRadix16 [s[2 * i], s[2 * i + 1]] with
    | none =>
      rw [hdrop]
      simp [decodeHexPairs, hp, Option.bind]
    | some b =>
      have hrec := ih (i + 1) (by omega)
      have hidx : 2 * (i + 1) = 2 * i + 2 := by omega
      rw [hidx] at hrec
      rw [hrec, hdrop]
      cases hd : decodeHexPairs (s.drop (2 * i + 2)) <;>
        simp [decodeHexPairs, hp, hd, Option.bind, Option.map, PResult.map]

/-- The radix-16 `u8` parse of a byte pair succeeds exactly when the pair is
accepted: two hex digits, or a leading `+` and one hex digit. -/
theorem u8_pair_isSome (b1 b2 : Nat) :
    (u8FromStrRadix16 [b1, b2]).isSome = pairAccepted b1 b2 := by
  unfold u8FromStrRadix16 pairAccepted isHexDigitByte
  by_cases hb : b1 = 0x2B
  · subst hb
    have h2b : hexVal 0x2B = none := by decide
    simp [List.head?, List.foldl, h2b, Option.bind, Option.map]
    cases h2 : hexVal b2 with
    | none => simp [Option.bind]
    | some v2 =>
      have hv := hexVal_lt h2
      simp [Option.bind]
      omega
  · simp only [List.head?, Option.some.injEq, hb, if_neg, List.isEmpty_cons, List.foldl]
    cases h1 : hexVal b1 with
    | none => simp [Option.bind, h1]
    | some v1 =>
      cases h2 : hexVal b2 with
      | none => simp [Option.bind, Option.map, h1, h2]
      | some v2 =>
        have hv1 := hexVal_lt h1
        have hv2 := hexVal_lt h2
        simp [Option.bind, Option.map, h1, h2]
        omega

/-- The structural pairwise decode succeeds exactly when all aligned pairs are
accepted. -/
theorem decode_pairs_isSome : ∀ s : Str, (decodeHexPairs s).isSome = pairsAccepted s := by
  intro s
  induction s using decodeHexPairs.induct with
  | case1 => simp [decodeHexPairs, pairsAccepted]
  | case2 b1 b2 rest ih =>
    rw [decodeHexPairs, pairsAccepted, ← u8_pair_isSome b1 b2]
    cases hp : u8FromStrRadix16 [b1, b2] <;>
      cases hd : decodeHexPairs rest <;>
      simp [hp, hd, Option.bind, Option.map] <;>
      simp [hd] at ih <;> simp [ih]
  | case3 b => simp [decodeHexPairs, pairsAccepted]

/-- Round-trip of the pairwise decode on hex-digit strings of even length: the
decode succeeds and rendering the bytes back gives the lowercased input. -/
theorem decode_pairs_hex :
    ∀ s : Str, (∀ b ∈ s, isHexDigitByte b = true) → s.length % 2 = 0 →
      ∃ bs, decodeHexPairs s = some bs ∧ bs.flatMap byteToHex = s.map lowerHexByte := by
  intro s
  induction s using decodeHexPairs.induct with
  | case1 => intro _ _; exact ⟨[], rfl, rfl⟩
  | case2 b1 b2 rest ih =>
    intro hhex hlen
    have h1 : isHexDigitByte b1 = true := hhex b1 (by simp)
    have h2 : isHexDigitByte b2 = true := hhex b2 (by simp)
    rw [isHexDigitByte, Option.isSome_iff_exists] at h1 h2
    obtain ⟨v1, hv1⟩ := h1
    obtain ⟨v2, hv2⟩ := h2
    obtain ⟨bs, hbs, hflat⟩ := ih (fun b hb => hhex b (by simp [hb])) (by simp at hlen ⊢; omega)
    refine ⟨(v1 * 16 + v2) :: bs, ?_, ?_⟩
    · rw [decodeHexPairs, u8_pair_of_hex hv1 hv2]
      simp [Option.bind, hbs, Option.map]
    · simp only [List.flatMap_cons, List.map_cons]
      rw [byteToHex_of_digits (hexVal_lt hv1) (hexVal_lt hv2), hflat,
        hexDigitLower_hexVal hv1, hexDigitLower_hexVal hv2]
      rfl
  | case3 b => intro _ hlen; simp at hlen

/-- The CID fallback of `ItemHash::try_from` realizes the CID classification
rules. -/
theorem cid_fallback_outcome (s : Str) :
    outcomeOf
      (match Cid.tryFrom s with
       | .ok c => .ok (.ipfs c)
       | .error _ => .err (.unknownHashType s)) = cidClassifyOutcome s := by
  unfold Cid.tryFrom cidClassifyOutcome
  split_ifs <;> simp [outcomeOf]

/-- On ASCII input, the outcome of `ItemHash::try_from` is exactly the amended
classification. -/
theorem tryFrom_outcome_ascii {s : Str} (ha : allAscii s) :
    outcomeOf (ItemHash.tryFrom s) = amendedC2Classify s := by
  unfold ItemHash.tryFrom
  by_cases hl : s.length = 64
  · have hrw : AlephItemHash.tryFrom s =
        (match decodeHexPairs s with
         | some bs => .ok (AlephItemHash.mk bs)
         | none => .err (.invalidHexDigit s)) := by
      unfold AlephItemHash.tryFrom
      rw [if_neg (by simp [hl])]
      rw [aleph_pairs_eq_decode ha hl 32 0 (by omega)]
      simp only [Nat.mul_zero, List.drop_zero]
      cases decodeHexPairs s <;> simp [PResult.map]
    rw [hrw]
    cases hd : decodeHexPairs s with
    | some bs =>
      have hpa : pairsAccepted s = true := by rw [← decode_pairs_isSome]; simp [hd]
      simp [outcomeOf, amendedC2Classify, hl, hpa]
    | none =>
      have hpa : pairsAccepted s = false := by rw [← decode_pairs_isSome]; simp [hd]
      simp only [amendedC2Classify, hl, hpa, Bool.false_eq_true, and_false, if_false]
      exact cid_fallback_outcome s
  · have hrw : AlephItemHash.tryFrom s = .err (.invalidLength s) := by
      unfold AlephItemHash.tryFrom
      rw [if_pos hl]
    rw [hrw]
    have hcl : ¬(s.length = 64 ∧ pairsAccepted s = true) := by
      intro hcon
      exact hl hcon.1
    simp only [amendedC2Classify]
    rw [if_neg (by simpa using hcl)]
    exact cid_fallback_outcome s

/-- C2 counterexample: the 64-byte ASCII string of 32 `+a` pairs is not made
of 64 hex characters, so the claim's classification sends it to the
unknown-hash-type error; the code's native decode accepts it (each pair
parses under the radix-16 `u8` rule) and produces the Native variant with all
bytes equal to 10. -/
theorem c2_claim_counterexample :
    claimC2Classify plusPairsInput = .errorOut ∧
    ItemHash.tryFrom plusPairsInput = .ok (.native ⟨List.replicate 32 10⟩) := by
  exact ⟨by decide, by decide⟩

/-- C2 as amended: on every ASCII string the classification is total and
deterministic, landing in exactly one of Native, CID V0, CID V1 or an error
according to the amended recognition rules — Native accepts exactly the
64-byte strings all of whose aligned byte pairs parse under the radix-16 `u8`
rule (two hex digits in either case, or a per-pair leading `+`), and on
failure the CID rules of the claim apply unchanged.  On non-ASCII input the
classification is not total: on a 64-byte input whose pair boundary falls
inside a multi-byte character the native decode panics at the byte slice, as
the concrete input exhibits. -/
theorem c2_classification_amended :
    (∀ s : Str, allAscii s → outcomeOf (ItemHash.tryFrom s) = amendedC2Classify s) ∧
    ItemHash.tryFrom hexPanicInput = .panicked := by
  exact ⟨fun _ ha => tryFrom_outcome_ascii ha, by decide⟩

/-- Helper: a map that leaves a list unchanged fixes every element. -/
theorem map_eq_self_fix {α : Type} {f : α → α} :
    ∀ {l : List α}, l.map f = l → ∀ x ∈ l, f x = x := by
  intro l
  induction l with
  | nil => intro _ x hx; cases hx
  | cons a t ih =>
    intro h x hx
    rw [List.map_cons, List.cons.injEq] at h
    rcases List.mem_cons.mp hx with hx | hx
    · exact hx ▸ h.1
    · exact ih h.2 x hx

/-- C7: every string of exactly 64 lowercase hex characters parses to the
Native variant, and displaying the parsed identifier reproduces the input
exactly. -/
theorem c7_identifier_roundtrip :
    ∀ s : Str, s.length = 64 → (∀ b ∈ s, isLowerHexByte b = true) →
      ∃ h, ItemHash.tryFrom s = .ok (.native h) ∧ (ItemHash.native h).display = s := by
  intro s hl hlo
  have hhex : ∀ b ∈ s, isHexDigitByte b = true := by
    intro b hb
    have := hlo b hb
    unfold isLowerHexByte at this
    unfold isHexDigitByte hexVal
    split_ifs <;> simp_all
  have ha : allAscii s := by
    intro b hb
    have := hlo b hb
    unfold isLowerHexByte at this
    simp at this
    omega
  obtain ⟨bs, hbs, hflat⟩ := decode_pairs_hex s hhex (by omega)
  have hfixpt : ∀ b ∈ s, lowerHexByte b = b := by
    intro b hb
    have hx := hlo b hb
    unfold isLowerHexByte at hx
    simp at hx
    unfold lowerHexByte
    split_ifs <;> omega
  have hfix : s.map lowerHexByte = s :=
    (List.map_congr_left hfixpt).trans (List.map_id s)
  refine ⟨⟨bs⟩, ?_, ?_⟩
  · unfold ItemHash.tryFrom AlephItemHash.tryFrom
    rw [if_neg (by simp [hl])]
    rw [aleph_pairs_eq_decode ha hl 32 0 (by omega)]
    simp only [Nat.mul_zero, List.drop_zero, hbs]
    rfl
  · show AlephItemHash.display ⟨bs⟩ = s
    unfold AlephItemHash.display
    rw [hflat, hfix]

/-- C7 witness: the round-trip at a concrete 64-character lowercase hex
string. -/
theorem c7_identifier_roundtrip_witness :
    ∃ h, ItemHash.tryFrom lowerHexInput = .ok (.native h) ∧
      (ItemHash.native h).display = lowerHexInput :=
  c7_identifier_roundtrip lowerHexInput (by decide) (by decide)

/-- C10: every string of exactly 64 hex characters in either case parses to
the Native variant (never the CID variant), display renders it in lowercase,
and an input containing an uppercase hex letter therefore does not round-trip
character for character. -/
theorem c10_uppercase_native_lowercase_display :
    ∀ s : Str, s.length = 64 → (∀ b ∈ s, isHexDigitByte b = true) →
      ∃ h, ItemHash.tryFrom s = .ok (.native h) ∧
        (ItemHash.native h).display = s.map lowerHexByte ∧
        ((∃ b ∈ s, isUpperHexLetter b = true) → (ItemHash.native h).display ≠ s) := by
  intro s hl hhex
  have ha : allAscii s := by
    intro b hb
    have := hhex b hb
    unfold isHexDigitByte hexVal at this
    split_ifs at this <;> simp_all <;> omega
  obtain ⟨bs, hbs, hflat⟩ := decode_pairs_hex s hhex (by omega)
  refine ⟨⟨bs⟩, ?_, ?_, ?_⟩
  · unfold ItemHash.tryFrom AlephItemHash.tryFrom
    rw [if_neg (by simp [hl])]
    rw [aleph_pairs_eq_decode ha hl 32 0 (by omega)]
    simp only [Nat.mul_zero, List.drop_zero, hbs]
    rfl
  · show AlephItemHash.display ⟨bs⟩ = s.map lowerHexByte
    unfold AlephItemHash.display
    rw [hflat]
  · rintro ⟨b, hb, hup⟩ hcon
    have hmap : s.map lowerHexByte = s := by
      have : AlephItemHash.display ⟨bs⟩ = s.map lowerHexByte := by
        unfold AlephItemHash.display
        rw [hflat]
      rw [← this]
      exact hcon
    have hfix := map_eq_self_fix hmap b hb
    unfold isUpperHexLetter at hup
    unfold lowerHexByte at hfix
    simp at hup
    rw [if_pos (by omega)] at hfix
    omega

/-- C10 witness: a concrete 64-character hex string with uppercase letters
parses as Native, displays in lowercase, and does not round-trip. -/
theorem c10_uppercase_witness :
    ∃ h, ItemHash.tryFrom upperHexInput = .ok (.native h) ∧
      (ItemHash.native h).display = upperHexInput.map lowerHexByte ∧
      ((∃ b ∈ upperHexInput, isUpperHexLetter b = true) →
        (ItemHash.native h).display ≠ upperHexInput) :=
  c10_uppercase_native_lowercase_display upperHexInput (by decide) (by decide)
